import Mathlib

/-!
# simple_dns_server: the DNS wire codec and the request handler

A shallow embedding of `internal/dnsserver/record.go` (`ParseBuffer`,
`MakeResponse`, `MakeEmptyResponse`) and of `handleRequest` and the closure
`cmdExtraction` of `StateRefresher` from `cmd/dnsserver/dnsserver.go`.

Conventions of the embedding:

* a Go `[]byte` and a Go `string` are both sequences of bytes; they are lists
  of natural numbers, and `IsBytes` says that every element is below 256;
* `uint16` header fields are natural numbers; they are written back with an
  explicit truncation to 16 bits (`putUint16`);
* an index `buffer[i]` outside the buffer and a nil dereference are Go
  panics: they are the outcome `panic`;
* the label loop of `ParseBuffer` runs on fuel; running out of fuel is the
  outcome `timeout`;
* the global `hostMap` is explicit state: `cmdExtraction` maps the table
  before the call to the table after it, from the error of `cmd.Run()` and
  the bytes of its standard output; `scanTokens` gives the lines that the
  `bufio.Scanner` yields from these bytes.
-/

namespace DnsServer

/-- Go `string`: a sequence of bytes (not necessarily valid UTF-8). -/
abbrev GoString := List Nat

/-- Every element of the sequence is a byte. -/
def IsBytes (b : List Nat) : Prop := ∀ x ∈ b, x < 256

instance (b : List Nat) : Decidable (IsBytes b) := by
  unfold IsBytes; exact inferInstance

/-! ## Error kinds (`const ( ... = iota )`, record.go 19-28) -/

def NotAQuestion : Int := 0
def NotAStandardQuery : Int := 1
def TruncationNotSupported : Int := 2
def NoQuestions : Int := 3
def MultipleQuestions : Int := 4
def FailedParsingBuffer : Int := 5
def QClassNotInet : Int := 6
def QTypeNotAddress : Int := 7

/-- The struct `dnsError` (record.go 30-33). -/
structure dnsError where
  code : Int
  e : String
  deriving DecidableEq, Repr

/-- The method `Code()` of `dnsError`. -/
def dnsError.Code (e : dnsError) : Int := e.code

/-- The method `Error()` of `dnsError`. -/
def dnsError.Error (e : dnsError) : String := e.e

/-- The struct `question` (record.go 43-48). -/
structure question where
  id : Nat
  qname : GoString
  question : List Nat
  questionName : List Nat
  deriving DecidableEq, Repr

/-- The method `Id()` of `question`. -/
def question.Id (q : DnsServer.question) : Nat := q.id

/-- The method `QName()` of `question`. -/
def question.QName (q : DnsServer.question) : GoString := q.qname

/-- The function `makeError` (record.go 58-60). -/
def makeError (code : Int) (msg : String) : dnsError := { code := code, e := msg }

/-- How a call ends: with a value, with a `DnsError`, with a Go panic, or
without an answer because the fuel of a loop ran out. -/
inductive Outcome (α : Type) where
  | ok : α → Outcome α
  | err : dnsError → Outcome α
  | panic : Outcome α
  | timeout : Outcome α
  deriving DecidableEq, Repr

/-! ## Byte-level helpers (Go slices and `encoding/binary`) -/

/-- The slice expression `b[i:j]`; `none` is the run-time panic of a slice
whose bounds are out of range (the capacity is taken to be the length). -/
def slice (b : List Nat) (i j : Nat) : Option (List Nat) :=
  if i ≤ j ∧ j ≤ b.length then some ((b.drop i).take (j - i)) else none

/-- `binary.BigEndian.Uint16` on a two-byte slice. -/
def beUint16 (hi lo : Nat) : Nat := hi * 256 + lo

/-- `binary.Write(_, binary.BigEndian, v)` for a `uint16`. -/
def putUint16 (v : Nat) : List Nat := [v / 256 % 256, v % 256]

/-- `binary.Write(_, binary.BigEndian, v)` for a `uint32`. -/
def putUint32 (v : Nat) : List Nat :=
  [v / 16777216 % 256, v / 65536 % 256, v / 256 % 256, v % 256]

/-- The anonymous header struct of `ParseBuffer`, `MakeResponse` and
`MakeEmptyResponse`. -/
structure Header where
  Id : Nat
  SecondLine1 : Nat
  SecondLine2 : Nat
  QdCount : Nat
  AnCount : Nat
  NsCount : Nat
  ArCount : Nat
  deriving DecidableEq, Repr

/-- `binary.Read(reader, binary.BigEndian, &header)`: twelve bytes, big-endian;
`none` when the reader holds fewer than twelve bytes. -/
def readHeader : List Nat → Option Header
  | i1 :: i0 :: s1 :: s2 :: q1 :: q0 :: a1 :: a0 :: n1 :: n0 :: r1 :: r0 :: _ =>
    some { Id := beUint16 i1 i0, SecondLine1 := s1, SecondLine2 := s2,
           QdCount := beUint16 q1 q0, AnCount := beUint16 a1 a0,
           NsCount := beUint16 n1 n0, ArCount := beUint16 r1 r0 }
  | _ => none

/-- `binary.Write(&msgBuffer, binary.BigEndian, header)`. -/
def writeHeader (h : Header) : List Nat :=
  putUint16 h.Id ++ [h.SecondLine1 % 256, h.SecondLine2 % 256] ++ putUint16 h.QdCount
    ++ putUint16 h.AnCount ++ putUint16 h.NsCount ++ putUint16 h.ArCount

/-! ## `ParseBuffer` (record.go 62-158) -/

/-- The loop `for qNameLength != 0 { ... }` (record.go 119-133). The result
is the final `bufferPos` and the bytes of `qnameBuffer`. -/
def labelLoop (buffer : List Nat) (bufferLength : Nat) :
    Nat → Nat → Nat → List Nat → Outcome (Nat × List Nat)
  | 0, _, _, _ => Outcome.timeout
  | fuel + 1, bufferPos, qNameLength, qnameBuffer =>
    if qNameLength ≠ 0 then
      let bufferPos := bufferPos + 1
      if bufferPos + qNameLength ≥ bufferLength then
        Outcome.err (makeError FailedParsingBuffer "Buffer too small #2")
      else
        let qnameBuffer := if qnameBuffer.length > 0 then qnameBuffer ++ [46] else qnameBuffer
        match slice buffer bufferPos (bufferPos + qNameLength) with
        | none => Outcome.panic
        | some label =>
          let qnameBuffer := qnameBuffer ++ label
          let bufferPos := bufferPos + qNameLength
          match buffer[bufferPos]? with
          | none => Outcome.panic
          | some qNameLength => labelLoop buffer bufferLength fuel bufferPos qNameLength qnameBuffer
    else
      Outcome.ok (bufferPos, qnameBuffer)

/-- The part of `ParseBuffer` after the label loop (record.go 135-157). -/
def parseQuestionTail (buffer : List Nat) (bufferLength : Nat) (id : Nat) (questionStart : Nat)
    (bufferPos : Nat) (qnameBuffer : List Nat) : Outcome question :=
  let bufferPos := bufferPos + 1
  let questionNameEnd := bufferPos
  if bufferPos + 4 > bufferLength then
    Outcome.err (makeError FailedParsingBuffer "Buffer too small #3")
  else
    match slice buffer bufferPos (bufferPos + 2) with
    | some [t1, t0] =>
      let qType := beUint16 t1 t0
      let bufferPos := bufferPos + 2
      match slice buffer bufferPos (bufferPos + 2) with
      | some [c1, c0] =>
        let qClass := beUint16 c1 c0
        let bufferPos := bufferPos + 2
        let questionEnd := bufferPos
        if qClass ≠ 1 then
          Outcome.err (makeError QClassNotInet "QClass is not an IN")
        else if qType ≠ 1 then
          Outcome.err (makeError QTypeNotAddress "QType not a host adddress (A)")
        else
          match slice buffer questionStart questionEnd, slice buffer questionStart questionNameEnd with
          | some qs, some qn =>
            Outcome.ok { id := id, qname := qnameBuffer, question := qs, questionName := qn }
          | _, _ => Outcome.panic
      | _ => Outcome.panic
    | _ => Outcome.panic

/-- The function `ParseBuffer` (record.go 62-158). The label loop gets
`len(buffer)` units of fuel. -/
def ParseBuffer (buffer : List Nat) : Outcome question :=
  let bufferLength := buffer.length
  if bufferLength < 12 then
    Outcome.err (makeError FailedParsingBuffer "Buffer too small")
  else
    match readHeader buffer with
    | none => Outcome.err (makeError FailedParsingBuffer "unexpected EOF")
    | some header =>
      let QR := header.SecondLine1 >>> 7
      if QR ≠ 0 then
        Outcome.err (makeError NotAQuestion "Request is not a query")
      else
        let Opcode := (header.SecondLine1 >>> 3) &&& 0xF
        if Opcode ≠ 0 then
          Outcome.err (makeError NotAStandardQuery "Request is not  a standard query")
        else
          let Truncation := (header.SecondLine1 >>> 1) &&& 1
          if Truncation ≠ 0 then
            Outcome.err (makeError TruncationNotSupported "Request is truncated but its not supported")
          else if header.QdCount = 0 then
            Outcome.err (makeError NoQuestions "Request has no questions")
          else if header.QdCount > 1 then
            Outcome.err (makeError MultipleQuestions "Request has multiple questions")
          else if buffer.length < 13 then
            Outcome.err (makeError FailedParsingBuffer "Buffer too small #1")
          else
            let bufferPos := 12
            let questionStart := bufferPos
            match buffer[bufferPos]? with
            | none => Outcome.panic
            | some qNameLength =>
              match labelLoop buffer bufferLength bufferLength bufferPos qNameLength [] with
              | Outcome.ok (bufferPos, qnameBuffer) =>
                parseQuestionTail buffer bufferLength header.Id questionStart bufferPos qnameBuffer
              | Outcome.err e => Outcome.err e
              | Outcome.panic => Outcome.panic
              | Outcome.timeout => Outcome.timeout

/-! ## `net.ParseIP(s).To4()` -/

/-- One decimal field of a dotted-quad address: one to three digits, no
leading zero on a field of more than one digit, value at most 255. -/
def parseOctet (field : List Nat) : Option Nat :=
  if field = [] ∨ 3 < field.length then none
  else if ¬ field.all (fun c => decide (48 ≤ c ∧ c ≤ 57)) then none
  else if 1 < field.length ∧ field.head? = some 48 then none
  else
    let val := field.foldl (fun acc c => acc * 10 + (c - 48)) 0
    if val > 255 then none else some val

/-- The fields of a string between the separator bytes `sep`. -/
def splitOnByte (sep : Nat) : List Nat → List (List Nat)
  | [] => [[]]
  | c :: cs =>
    if c = sep then [] :: splitOnByte sep cs
    else
      match splitOnByte sep cs with
      | [] => [[c]]
      | f :: fs => (c :: f) :: fs

/-- The standard-library call `net.ParseIP(s).To4()` on the dotted-decimal
form of an address (Go 1.17 and later): exactly four decimal fields
separated by `.`, each as `parseOctet` reads it. The result `none` is Go's
nil `IP`. Only the dotted-decimal form is modelled: a string holding any
other byte gives `none`, also the textual IPv6 forms of an IPv4-mapped
address, for which Go returns four bytes. -/
def ParseIPTo4 (s : GoString) : Option (List Nat) :=
  match splitOnByte 46 s with
  | [f0, f1, f2, f3] =>
    match parseOctet f0, parseOctet f1, parseOctet f2, parseOctet f3 with
    | some a, some b, some c, some d => some [a, b, c, d]
    | _, _, _, _ => none
  | _ => none

/-! ## `MakeResponse` and `MakeEmptyResponse` (record.go 160-235) -/

/-- The anonymous struct `resourceRecord` of `MakeResponse` (its field `Type`
is `Type_` here). -/
structure ResourceRecord where
  Type_ : Nat
  Class : Nat
  TTL : Nat
  RDLength : Nat
  Addr : List Nat
  deriving DecidableEq, Repr

/-- `binary.Write(&msgBuffer, binary.BigEndian, resourceRecord)`. -/
def writeResourceRecord (r : ResourceRecord) : List Nat :=
  putUint16 r.Type_ ++ putUint16 r.Class ++ putUint32 r.TTL ++ putUint16 r.RDLength ++ r.Addr

/-- The function `MakeResponse` (record.go 160-206). The result `none` is
the panic of indexing the nil `addrIP`. -/
def MakeResponse (q : question) (resultAddress : GoString) : Option (List Nat) :=
  let header : Header :=
    { Id := q.id, SecondLine1 := 1 <<< 7, SecondLine2 := 0,
      QdCount := 1, AnCount := 1, NsCount := 0, ArCount := 0 }
  let msgBuffer := writeHeader header
  let msgBuffer := msgBuffer ++ q.question
  let msgBuffer := msgBuffer ++ q.questionName
  match ParseIPTo4 resultAddress with
  | some [a0, a1, a2, a3] =>
    let resourceRecord : ResourceRecord :=
      { Type_ := 1, Class := 1, TTL := 60, RDLength := 4, Addr := [a0, a1, a2, a3] }
    some (msgBuffer ++ writeResourceRecord resourceRecord)
  | _ => none

/-- The function `MakeEmptyResponse` (record.go 208-235). -/
def MakeEmptyResponse (q : question) : List Nat :=
  let header : Header :=
    { Id := q.id, SecondLine1 := 1 <<< 7, SecondLine2 := 0,
      QdCount := 1, AnCount := 0, NsCount := 0, ArCount := 0 }
  let msgBuffer := writeHeader header
  let msgBuffer := msgBuffer ++ q.question
  msgBuffer

/-! ## `handleRequest` (dnsserver.go 22-51) -/

/-- The global `hostMap map[string]string`: an association list read from
the front. -/
abbrev HostMap := List (GoString × GoString)

/-- The map read `hostMap[key]` with its `ok` flag. -/
def HostMap.get (m : HostMap) (key : GoString) : Option GoString := List.lookup key m

/-- The function `handleRequest` (dnsserver.go 22-51), as the list of the
datagrams it passes to `con.WriteTo`, each with its destination. The result
`none` is a panic inside `MakeResponse` or `ParseBuffer`, or a parse that
ran out of fuel. -/
def handleRequest {Addr : Type} (hostMap : HostMap) (addr : Addr) (buffer : List Nat) :
    Option (List (List Nat × Addr)) :=
  match ParseBuffer buffer with
  | Outcome.err _ => some []
  | Outcome.ok question =>
    match HostMap.get hostMap question.QName with
    | some resultIp =>
      match MakeResponse question resultIp with
      | some result => some [(result, addr)]
      | none => none
    | none => some [(MakeEmptyResponse question, addr)]
  | Outcome.panic => none
  | Outcome.timeout => none

/-! ## `cmdExtraction` of `StateRefresher` (dnsserver.go 57-86) -/

/-- The map assignment `m[key] = value`: the entry of `key` is replaced. -/
def HostMap.set (m : HostMap) (key value : GoString) : HostMap :=
  (key, value) :: m.filter (fun p => decide (p.1 ≠ key))

/-- The string cut at its first byte `sep`: the text before it and the text
after it; `none` when the string holds no `sep`. -/
def cutFirst (sep : Nat) : GoString → Option (GoString × GoString)
  | [] => none
  | c :: cs =>
    if c = sep then some ([], cs)
    else
      match cutFirst sep cs with
      | none => none
      | some (before, after) => some (c :: before, after)

/-- The standard-library call `strings.SplitN(s, sep, 2)` for a one-byte
separator: the whole string when it holds no separator, else the text before
the first separator and the text after it. -/
def SplitN2 (s : GoString) (sep : Nat) : List GoString :=
  match cutFirst sep s with
  | none => [s]
  | some (before, after) => [before, after]

/-- One iteration of the scan loop of `cmdExtraction` (dnsserver.go 74-80)
on the line `scanner.Text()`; byte 59 is `;`. -/
def scanLine (newHostMap : HostMap) (line : GoString) : HostMap :=
  match SplitN2 line 59 with
  | [part0, part1] => HostMap.set newHostMap part1 part0
  | _ => newHostMap

/-- The scan loop of `cmdExtraction` (dnsserver.go 73-81) over the tokens
`scanner.Text()` of the successive `scanner.Scan()`, from
`newHostMap := make(map[string]string)`. -/
def scanLines (lines : List GoString) : HostMap := lines.foldl scanLine []

/-- The function `dropCR` of `bufio.ScanLines`: one trailing carriage return
(byte 13) is dropped. -/
def dropCR (data : List Nat) : List Nat :=
  if data.getLast? = some 13 then data.dropLast else data

/-- The lines of a byte sequence as `bufio.ScanLines` cuts them, before
`dropCR`: the text between the newlines (byte 10), and the text after the
last newline when it is not empty. -/
def rawLines (data : List Nat) : List (List Nat) :=
  let fields := splitOnByte 10 data
  if fields.getLast? = some [] then fields.dropLast else fields

/-- The constant `bufio.MaxScanTokenSize`, the buffer limit of a scanner made
by `bufio.NewScanner`. -/
def MaxScanTokenSize : Nat := 64 * 1024

/-- The tokens `scanner.Text()` that the loop `for scanner.Scan()` sees on
`bufio.NewScanner(&stdout)` (dnsserver.go 71-74): the split function is
`bufio.ScanLines` and the buffer holds at most `MaxScanTokenSize` bytes. A
line of `MaxScanTokenSize` bytes or more before its newline (or before the
end of the output) fills the buffer with no newline in it: `Scan` sets
`ErrTooLong` and returns false, so that line and all later lines yield no
token. The loop never reads `scanner.Err()`. -/
def scanTokens (stdout : List Nat) : List GoString :=
  ((rawLines stdout).takeWhile (fun raw => decide (raw.length < MaxScanTokenSize))).map dropCR

/-- What `cmd.Run()` leaves behind: its error (`none` is nil; a spawn error
or a non-zero exit otherwise) and the bytes captured in the buffer `stdout`. -/
structure CmdRun where
  err : Option String
  stdout : List Nat

/-- The closure `cmdExtraction` (dnsserver.go 57-86) as a step on the global
`hostMap`: the state after the call. -/
def cmdExtraction (run : CmdRun) (hostMap : HostMap) : HostMap :=
  match run.err with
  | some _ => hostMap
  | none =>
    let newHostMap := scanLines (scanTokens run.stdout)
    newHostMap

/-! ## Vocabulary of the statements -/

/-- The wire form of a name: each label as its length byte and its bytes,
then the zero byte of the root label. -/
def encodeName : List (List Nat) → List Nat
  | [] => [0]
  | l :: ls => l.length :: (l ++ encodeName ls)

/-- The labels joined with `.` (byte 46). -/
def joinLabels (labels : List (List Nat)) : GoString := List.intercalate [46] labels

/-- The decimal digits of a byte, as ASCII. -/
def decimal (n : Nat) : List Nat :=
  if n < 10 then [48 + n]
  else if n < 100 then [48 + n / 10, 48 + n % 10]
  else [48 + n / 100, 48 + n / 10 % 10, 48 + n % 10]

/-- The dotted-quad string `a.b.c.d`. -/
def dottedQuad (a b c d : Nat) : GoString :=
  decimal a ++ [46] ++ decimal b ++ [46] ++ decimal c ++ [46] ++ decimal d

/-- The query of the scenario: id 1, one question `www` A IN. -/
def wwwQuery : List Nat :=
  [0, 1, 0, 0, 0, 1, 0, 0, 0, 0, 0, 0, 3, 119, 119, 119, 0, 0, 1, 0, 1]

/-- The `Question` that `ParseBuffer` returns on `wwwQuery`. -/
def wwwQuestion : question :=
  { id := 1, qname := [119, 119, 119],
    question := [3, 119, 119, 119, 0, 0, 1, 0, 1],
    questionName := [3, 119, 119, 119, 0] }

/-- The contents of `qnameBuffer` after the label loop has appended the
labels to the contents `acc` (record.go 126-129). -/
def appendLabels (acc : List Nat) : List (List Nat) → List Nat
  | [] => acc
  | l :: ls => appendLabels ((if acc.length > 0 then acc ++ [46] else acc) ++ l) ls

/-- Each label preceded by a `.` (byte 46). -/
def tailJoin : List (List Nat) → List Nat
  | [] => []
  | l :: ls => 46 :: (l ++ tailJoin ls)

/-- The first byte of `encodeName labels`. -/
def nameHead : List (List Nat) → Nat
  | [] => 0
  | l :: _ => l.length

/-- Byte 2 of the buffer: the first flags byte of the header. -/
def flagsByte (buffer : List Nat) : Nat := buffer.getD 2 0

/-- QDCOUNT: bytes 4-5 of the buffer, big-endian. -/
def qdCount (buffer : List Nat) : Nat := beUint16 (buffer.getD 4 0) (buffer.getD 5 0)

/-- The QR bit (bit 7 of byte 2) is set. -/
def QRSet (buffer : List Nat) : Prop := (flagsByte buffer).testBit 7 = true

/-- The opcode bits (bits 3-6 of byte 2) are all zero. -/
def OpcodeZero (buffer : List Nat) : Prop :=
  ∀ i ∈ [3, 4, 5, 6], (flagsByte buffer).testBit i = false

/-- The truncation bit (bit 1 of byte 2) is set. -/
def TCSet (buffer : List Nat) : Prop := (flagsByte buffer).testBit 1 = true

/-- The buffer passes the header checks: QR = 0, opcode = 0, truncation = 0,
QDCOUNT = 1. -/
def PassesHeaderChecks (buffer : List Nat) : Prop :=
  ¬ QRSet buffer ∧ OpcodeZero buffer ∧ ¬ TCSet buffer ∧ qdCount buffer = 1

instance (buffer : List Nat) : Decidable (QRSet buffer) := by
  unfold QRSet; exact inferInstance

instance (buffer : List Nat) : Decidable (OpcodeZero buffer) := by
  unfold OpcodeZero; exact inferInstance

instance (buffer : List Nat) : Decidable (TCSet buffer) := by
  unfold TCSet; exact inferInstance

instance (buffer : List Nat) : Decidable (PassesHeaderChecks buffer) := by
  unfold PassesHeaderChecks; exact inferInstance

/-- The bytes are a complete sequence of length-prefixed labels (each of 1 to
255 bytes) ended by a zero-length label and followed by at least four more
bytes. -/
def CompleteQuestion (bytes : List Nat) : Prop :=
  ∃ (labels : List (List Nat)) (extra : List Nat),
    (∀ l ∈ labels, 1 ≤ l.length ∧ l.length ≤ 255) ∧ 4 ≤ extra.length ∧
      bytes = encodeName labels ++ extra

/-- The query of the scenario with QDCOUNT = 2. -/
def twoQuestionsQuery : List Nat :=
  [0, 1, 0, 0, 0, 2, 0, 0, 0, 0, 0, 0, 3, 119, 119, 119, 0, 0, 1, 0, 1]

/-- The kinds of error that `ParseBuffer` can only report after the length
check of the header. -/
def laterErrorKinds : List Int :=
  [NotAQuestion, NotAStandardQuery, TruncationNotSupported, NoQuestions, MultipleQuestions,
    QClassNotInet, QTypeNotAddress]


/-- The bytes of an ASCII string literal. -/
def ascii (s : String) : GoString := s.toList.map Char.toNat

/-- The line has exactly one `;`. -/
def OneSemicolon (line : GoString) : Prop := line.count 59 = 1

/-- The line has no `;`. -/
def NoSemicolon (line : GoString) : Prop := 59 ∉ line

instance (line : GoString) : Decidable (OneSemicolon line) := by
  unfold OneSemicolon; exact inferInstance

instance (line : GoString) : Decidable (NoSemicolon line) := by
  unfold NoSemicolon; exact inferInstance

/-- The line is `address;hostname` and none of the later lines of the batch is
a line `a;hostname`: it is the last line of the batch that names the host. -/
def LastLineNaming (lines : List GoString) (host address : GoString) : Prop :=
  ∃ before after, lines = before ++ (address ++ 59 :: host) :: after ∧
    ∀ line ∈ after, ∀ a, line ≠ a ++ 59 :: host

/-- The batch of output lines: the output cut at its newlines, one trailing
carriage return of a line dropped. -/
def outputLines (stdout : List Nat) : List GoString := (rawLines stdout).map dropCR

/-- Every line of the output has fewer than 65536 bytes before its newline. -/
def ShortLines (stdout : List Nat) : Prop :=
  ∀ raw ∈ rawLines stdout, raw.length < MaxScanTokenSize

instance (stdout : List Nat) : Decidable (ShortLines stdout) := by
  unfold ShortLines; exact inferInstance

/-- The line `address ++ ";" ++ host`, cut at its first `;`, is the last line
of the batch whose text after the first `;` is `host`. -/
def LastLineCut (lines : List GoString) (host address : GoString) : Prop :=
  ∃ before after, lines = before ++ (address ++ 59 :: host) :: after ∧ NoSemicolon address ∧
    ∀ line ∈ after, ∀ a, NoSemicolon a → line ≠ a ++ 59 :: host

/-- A line of 65536 bytes `x`. -/
def longLine : List Nat := List.replicate 65536 120

/-- The output `1.2.3.4;a`, a line of 65536 bytes `x`, `5.6.7.8;b`, each
ended by a newline. -/
def truncatedOutput : List Nat :=
  ascii "1.2.3.4;a" ++ 10 :: (longLine ++ 10 :: (ascii "5.6.7.8;b" ++ [10]))

/-- The address of the last line of the batch that `cutFirst` splits into an
address and the host `host`, if there is one. -/
def lastNaming (host : GoString) : List GoString → Option GoString
  | [] => none
  | line :: rest =>
    match lastNaming host rest with
    | some address => some address
    | none =>
      match cutFirst 59 line with
      | some (address, h) => if h = host then some address else none
      | none => none

/-! ## Lemmas -/

set_option maxRecDepth 100000 in
theorem flag_bits : ∀ f, f < 256 →
    ((f >>> 7 ≠ 0) ↔ f.testBit 7 = true) ∧
    (((f >>> 3) &&& 0xF ≠ 0) ↔ ¬ (∀ i ∈ [3, 4, 5, 6], f.testBit i = false)) ∧
    (((f >>> 1) &&& 1 ≠ 0) ↔ f.testBit 1 = true) := by
  decide

theorem slice_of_decomp (buffer a b c : List Nat) (i j : Nat) (hb : buffer = a ++ (b ++ c))
    (hi : i = a.length) (hj : j = a.length + b.length) : slice buffer i j = some b := by
  subst hb hi hj
  simp [slice]

theorem getElem?_of_decomp (buffer a c : List Nat) (x i : Nat) (hb : buffer = a ++ x :: c)
    (hi : i = a.length) : buffer[i]? = some x := by
  subst hb hi
  rw [List.getElem?_append_right (Nat.le_refl _)]
  simp

theorem encodeName_length_pos (labels : List (List Nat)) : 0 < (encodeName labels).length := by
  cases labels <;> simp [encodeName]

theorem encodeName_length_gt (labels : List (List Nat)) :
    labels.length < (encodeName labels).length := by
  induction labels with
  | nil => simp [encodeName]
  | cons l ls ih => simp [encodeName]; omega

theorem encodeName_eq_head_cons (labels : List (List Nat)) :
    ∃ t, encodeName labels = nameHead labels :: t := by
  cases labels <;> simp [encodeName, nameHead]

theorem labelLoop_encodeName (labels : List (List Nat)) :
    ∀ (buffer pre post acc : List Nat) (fuel : Nat), buffer = pre ++ (encodeName labels ++ post) →
      (∀ l ∈ labels, l ≠ []) → labels.length < fuel →
      labelLoop buffer buffer.length fuel pre.length (nameHead labels) acc
        = Outcome.ok (pre.length + (encodeName labels).length - 1, appendLabels acc labels) := by
  induction labels with
  | nil =>
    intro buffer pre post acc fuel _ _ hf
    cases fuel with
    | zero => omega
    | succ n => simp [labelLoop, encodeName, appendLabels, nameHead]
  | cons l ls ih =>
    intro buffer pre post acc fuel hbuf hne hf
    cases fuel with
    | zero => omega
    | succ n =>
      have hl : l.length ≠ 0 := by
        have := hne l (by simp)
        simpa using this
      obtain ⟨t, ht⟩ := encodeName_eq_head_cons ls
      have hpos := encodeName_length_pos ls
      have hlen : buffer.length = pre.length + (1 + l.length + (encodeName ls).length) + post.length := by
        subst hbuf; simp [encodeName]; omega
      have hslice : slice buffer (pre.length + 1) (pre.length + 1 + l.length) = some l := by
        apply slice_of_decomp buffer (pre ++ [l.length]) l (encodeName ls ++ post)
        · subst hbuf; simp [encodeName]
        · simp
        · simp
      have hnext : buffer[pre.length + 1 + l.length]? = some (nameHead ls) := by
        apply getElem?_of_decomp buffer (pre ++ l.length :: l) (t ++ post)
        · subst hbuf; simp [encodeName, ht]
        · simp; omega
      have hrec := ih buffer (pre ++ l.length :: l) post
        ((if acc.length > 0 then acc ++ [46] else acc) ++ l) n
        (by subst hbuf; simp [encodeName]) (fun x hx => hne x (by simp [hx]))
        (by simp at hf; omega)
      have hpl : (pre ++ l.length :: l).length = pre.length + 1 + l.length := by simp; omega
      rw [hpl] at hrec
      rw [labelLoop]
      simp only [nameHead, hl, ne_eq, not_false_eq_true, if_true]
      have hcheck : ¬ (pre.length + 1 + l.length ≥ buffer.length) := by omega
      simp only [hcheck, if_false, hslice, hnext, hrec, appendLabels]
      simp [encodeName]
      omega

theorem appendLabels_of_ne_nil (labels : List (List Nat)) :
    ∀ acc : List Nat, acc ≠ [] → appendLabels acc labels = acc ++ tailJoin labels := by
  induction labels with
  | nil => intro acc _; simp [appendLabels, tailJoin]
  | cons l ls ih =>
    intro acc hacc
    have hpos : acc.length > 0 := List.length_pos.mpr hacc
    simp only [appendLabels, hpos, if_true]
    rw [ih _ (by simp [hacc])]
    simp [tailJoin]

theorem joinLabels_cons (l : List Nat) (ls : List (List Nat)) :
    joinLabels (l :: ls) = l ++ tailJoin ls := by
  induction ls generalizing l with
  | nil => simp [joinLabels, List.intercalate, tailJoin]
  | cons m ms ih =>
    have := ih m
    simp [joinLabels, List.intercalate, tailJoin] at this ⊢
    simp [this]

theorem appendLabels_nil (labels : List (List Nat)) (hne : ∀ l ∈ labels, l ≠ []) :
    appendLabels [] labels = joinLabels labels := by
  cases labels with
  | nil => simp [appendLabels, joinLabels, List.intercalate]
  | cons l ls =>
    simp only [appendLabels, List.length_nil, gt_iff_lt, Nat.lt_irrefl, if_false, List.nil_append]
    rw [appendLabels_of_ne_nil ls l (hne l (by simp)), joinLabels_cons]

theorem parseQuestionTail_of_decomp (buffer hdr name extra acc : List Nat)
    (t1 t0 c1 c0 id pos : Nat)
    (hbuf : buffer = hdr ++ (name ++ (t1 :: t0 :: c1 :: c0 :: extra)))
    (hpos : pos + 1 = hdr.length + name.length) :
    parseQuestionTail buffer buffer.length id hdr.length pos acc =
      if beUint16 c1 c0 ≠ 1 then Outcome.err (makeError QClassNotInet "QClass is not an IN")
      else if beUint16 t1 t0 ≠ 1 then
        Outcome.err (makeError QTypeNotAddress "QType not a host adddress (A)")
      else Outcome.ok { id := id, qname := acc, question := name ++ [t1, t0, c1, c0],
                        questionName := name } := by
  have hlen : buffer.length = hdr.length + name.length + 4 + extra.length := by
    subst hbuf; simp; omega
  have hT : slice buffer (pos + 1) (pos + 1 + 2) = some [t1, t0] :=
    slice_of_decomp buffer (hdr ++ name) [t1, t0] (c1 :: c0 :: extra) _ _
      (by subst hbuf; simp) (by simp; omega) (by simp; omega)
  have hC : slice buffer (pos + 1 + 2) (pos + 1 + 2 + 2) = some [c1, c0] :=
    slice_of_decomp buffer (hdr ++ (name ++ [t1, t0])) [c1, c0] extra _ _
      (by subst hbuf; simp) (by simp; omega) (by simp; omega)
  have hQ : slice buffer hdr.length (pos + 1 + 2 + 2) = some (name ++ [t1, t0, c1, c0]) :=
    slice_of_decomp buffer hdr (name ++ [t1, t0, c1, c0]) extra _ _
      (by subst hbuf; simp) rfl (by simp; omega)
  have hN : slice buffer hdr.length (pos + 1) = some name :=
    slice_of_decomp buffer hdr name (t1 :: t0 :: c1 :: c0 :: extra) _ _
      (by subst hbuf; simp) rfl (by omega)
  have hcheck : ¬ (pos + 1 + 4 > buffer.length) := by omega
  unfold parseQuestionTail
  simp only [hcheck, if_false, hT, hC, hQ, hN]

theorem ParseBuffer_of_wire (i1 i0 f1 f2 a1 a0 n1 n0 r1 r0 t1 t0 c1 c0 : Nat)
    (labels : List (List Nat)) (extra : List Nat)
    (hqr : f1 >>> 7 = 0) (hop : (f1 >>> 3) &&& 0xF = 0) (htc : (f1 >>> 1) &&& 1 = 0)
    (hne : ∀ l ∈ labels, l ≠ []) :
    ParseBuffer ([i1, i0, f1, f2, 0, 1, a1, a0, n1, n0, r1, r0]
        ++ (encodeName labels ++ (t1 :: t0 :: c1 :: c0 :: extra))) =
      if beUint16 c1 c0 ≠ 1 then Outcome.err (makeError QClassNotInet "QClass is not an IN")
      else if beUint16 t1 t0 ≠ 1 then
        Outcome.err (makeError QTypeNotAddress "QType not a host adddress (A)")
      else Outcome.ok { id := beUint16 i1 i0, qname := joinLabels labels,
                        question := encodeName labels ++ [t1, t0, c1, c0],
                        questionName := encodeName labels } := by
  obtain ⟨t, ht⟩ := encodeName_eq_head_cons labels
  have hpos := encodeName_length_pos labels
  have hgt := encodeName_length_gt labels
  generalize hB : [i1, i0, f1, f2, 0, 1, a1, a0, n1, n0, r1, r0]
        ++ (encodeName labels ++ (t1 :: t0 :: c1 :: c0 :: extra)) = buffer
  have hlen : buffer.length = 12 + (encodeName labels).length + 4 + extra.length := by
    subst hB; simp; omega
  have hhdr : readHeader buffer = some
      { Id := beUint16 i1 i0, SecondLine1 := f1, SecondLine2 := f2, QdCount := 1,
        AnCount := beUint16 a1 a0, NsCount := beUint16 n1 n0, ArCount := beUint16 r1 r0 } := by
    subst hB; rfl
  have h12 : buffer[12]? = some (nameHead labels) :=
    getElem?_of_decomp buffer [i1, i0, f1, f2, 0, 1, a1, a0, n1, n0, r1, r0]
      (t ++ (t1 :: t0 :: c1 :: c0 :: extra)) _ _ (by subst hB; simp [ht]) rfl
  have hloop : labelLoop buffer buffer.length buffer.length 12 (nameHead labels) [] =
      Outcome.ok (12 + (encodeName labels).length - 1, appendLabels [] labels) :=
    labelLoop_encodeName labels buffer [i1, i0, f1, f2, 0, 1, a1, a0, n1, n0, r1, r0]
    (t1 :: t0 :: c1 :: c0 :: extra) [] buffer.length hB.symm hne (by omega)
  have htail : parseQuestionTail buffer buffer.length (beUint16 i1 i0) 12
      (12 + (encodeName labels).length - 1) (appendLabels [] labels) = _ :=
    parseQuestionTail_of_decomp buffer [i1, i0, f1, f2, 0, 1, a1, a0, n1, n0, r1, r0]
    (encodeName labels) extra (appendLabels [] labels) t1 t0 c1 c0 (beUint16 i1 i0)
    (12 + (encodeName labels).length - 1) hB.symm (by simp; omega)
  have e11 : 12 + (encodeName labels).length - 1 = 11 + (encodeName labels).length := by omega
  rw [e11, appendLabels_nil labels hne] at hloop htail
  have h1 : ¬ buffer.length < 12 := by omega
  have h2 : ¬ buffer.length < 13 := by omega
  unfold ParseBuffer
  simp only [h1, h2, if_false, hhdr, hqr, hop, htc, ne_eq, not_true_eq_false, h12, hloop, htail]
  simp [hloop, htail]

theorem drop_eq_cons_of_getElem? (buffer : List Nat) (pos x : Nat) (h : buffer[pos]? = some x) :
    buffer.drop pos = x :: buffer.drop (pos + 1) := by
  obtain ⟨hlt, hx⟩ := List.getElem?_eq_some.mp h
  rw [List.drop_eq_getElem_cons hlt, hx]

theorem labelLoop_sound (buffer : List Nat) :
    ∀ (fuel pos len : Nat) (acc : List Nat), buffer[pos]? = some len →
      buffer.length ≤ fuel + pos →
      labelLoop buffer buffer.length fuel pos len acc
          = Outcome.err (makeError FailedParsingBuffer "Buffer too small #2")
      ∨ ∃ pos' labels,
          labelLoop buffer buffer.length fuel pos len acc
            = Outcome.ok (pos', appendLabels acc labels)
          ∧ pos' < buffer.length
          ∧ (∀ l ∈ labels, l ≠ [] ∧ l.length ∈ buffer)
          ∧ buffer.drop pos = encodeName labels ++ buffer.drop (pos' + 1) := by
  intro fuel
  induction fuel with
  | zero =>
    intro pos len acc hget hfuel
    obtain ⟨hlt, _⟩ := List.getElem?_eq_some.mp hget
    omega
  | succ n ih =>
    intro pos len acc hget hfuel
    obtain ⟨hlt, hx⟩ := List.getElem?_eq_some.mp hget
    have hdrop := drop_eq_cons_of_getElem? buffer pos len hget
    by_cases hlen : len = 0
    · right
      refine ⟨pos, [], ?_, hlt, by simp, ?_⟩
      · simp [labelLoop, hlen, appendLabels]
      · simpa [encodeName, hlen] using hdrop
    · by_cases hcheck : pos + 1 + len ≥ buffer.length
      · left
        simp [labelLoop, hlen, hcheck]
      · have hslice : slice buffer (pos + 1) (pos + 1 + len)
            = some ((buffer.drop (pos + 1)).take len) := by
          simp [slice]; omega
        have hin : pos + 1 + len < buffer.length := by omega
        have hnext : buffer[pos + 1 + len]? = some (buffer[pos + 1 + len]) :=
          List.getElem?_eq_getElem hin
        have hstep : labelLoop buffer buffer.length (n + 1) pos len acc
            = labelLoop buffer buffer.length n (pos + 1 + len) (buffer[pos + 1 + len])
                ((if acc.length > 0 then acc ++ [46] else acc)
                  ++ (buffer.drop (pos + 1)).take len) := by
          rw [labelLoop]
          simp only [hlen, ne_eq, not_false_eq_true, if_true, hcheck, if_false, hslice, hnext]
        rcases ih (pos + 1 + len) (buffer[pos + 1 + len])
            ((if acc.length > 0 then acc ++ [46] else acc) ++ (buffer.drop (pos + 1)).take len)
            hnext (by omega) with herr | ⟨pos', labels, hok, hlt', hlab, hdec⟩
        · left
          rw [hstep, herr]
        · right
          have htl : ((buffer.drop (pos + 1)).take len).length = len := by
            simp; omega
          refine ⟨pos', (buffer.drop (pos + 1)).take len :: labels, ?_, hlt', ?_, ?_⟩
          · rw [hstep, hok]
            simp [appendLabels]
          · intro l hl
            rcases List.mem_cons.mp hl with rfl | hl
            · refine ⟨?_, ?_⟩
              · intro h0
                rw [h0] at htl
                simp at htl
                exact hlen htl.symm
              · rw [htl, ← hx]
                exact List.getElem_mem hlt
            · exact hlab l hl
          · have hsplit : buffer.drop (pos + 1)
                = (buffer.drop (pos + 1)).take len ++ buffer.drop (pos + 1 + len) := by
              rw [← List.drop_drop len (pos + 1) buffer, List.take_append_drop]
            rw [hdrop]
            simp only [encodeName, htl, List.cons_append, List.append_assoc]
            rw [← hdec, ← hsplit]

set_option maxRecDepth 100000 in
theorem decimal_facts : ∀ n, n < 256 → 46 ∉ decimal n ∧ parseOctet (decimal n) = some n := by
  decide

theorem splitOnByte_of_not_mem (sep : Nat) (f : List Nat) (h : sep ∉ f) :
    splitOnByte sep f = [f] := by
  induction f with
  | nil => rfl
  | cons c cs ih =>
    have hc : c ≠ sep := fun e => h (by simp [e])
    have hcs : sep ∉ cs := fun e => h (by simp [e])
    simp [splitOnByte, hc, ih hcs]

theorem splitOnByte_append_sep (sep : Nat) (f rest : List Nat) (h : sep ∉ f) :
    splitOnByte sep (f ++ sep :: rest) = f :: splitOnByte sep rest := by
  induction f with
  | nil => simp [splitOnByte]
  | cons c cs ih =>
    have hc : c ≠ sep := fun e => h (by simp [e])
    have hcs : sep ∉ cs := fun e => h (by simp [e])
    simp [splitOnByte, hc, ih hcs]

theorem ParseIPTo4_dottedQuad (a b c d : Nat) (ha : a < 256) (hb : b < 256) (hc : c < 256)
    (hd : d < 256) : ParseIPTo4 (dottedQuad a b c d) = some [a, b, c, d] := by
  have h := decimal_facts
  have hsplit : splitOnByte 46 (dottedQuad a b c d)
      = [decimal a, decimal b, decimal c, decimal d] := by
    unfold dottedQuad
    simp only [List.append_assoc, List.singleton_append, List.cons_append, List.nil_append]
    rw [splitOnByte_append_sep 46 _ _ (h a ha).1, splitOnByte_append_sep 46 _ _ (h b hb).1,
      splitOnByte_append_sep 46 _ _ (h c hc).1, splitOnByte_of_not_mem 46 _ (h d hd).1]
  unfold ParseIPTo4
  simp only [hsplit, (h a ha).2, (h b hb).2, (h c hc).2, (h d hd).2]

theorem exists_header_of_length (buffer : List Nat) (h : 12 ≤ buffer.length) :
    ∃ i1 i0 f1 f2 q1 q0 a1 a0 n1 n0 r1 r0 rest,
      buffer = i1 :: i0 :: f1 :: f2 :: q1 :: q0 :: a1 :: a0 :: n1 :: n0 :: r1 :: r0 :: rest := by
  rcases buffer with _ | ⟨a0, _ | ⟨a1, _ | ⟨a2, _ | ⟨a3, _ | ⟨a4, _ | ⟨a5, _ | ⟨a6, _ | ⟨a7,
    _ | ⟨a8, _ | ⟨a9, _ | ⟨a10, _ | ⟨a11, rest⟩⟩⟩⟩⟩⟩⟩⟩⟩⟩⟩⟩ <;>
    first
    | exact ⟨_, _, _, _, _, _, _, _, _, _, _, _, _, rfl⟩
    | (simp at h)

/-- The header checks of `ParseBuffer`, in their order, on a buffer of at
least twelve bytes. -/
theorem ParseBuffer_header_checks (i1 i0 f1 f2 q1 q0 a1 a0 n1 n0 r1 r0 : Nat) (rest : List Nat) :
    (f1 >>> 7 ≠ 0 →
      ParseBuffer (i1 :: i0 :: f1 :: f2 :: q1 :: q0 :: a1 :: a0 :: n1 :: n0 :: r1 :: r0 :: rest)
        = Outcome.err (makeError NotAQuestion "Request is not a query")) ∧
    (f1 >>> 7 = 0 → (f1 >>> 3) &&& 0xF ≠ 0 →
      ParseBuffer (i1 :: i0 :: f1 :: f2 :: q1 :: q0 :: a1 :: a0 :: n1 :: n0 :: r1 :: r0 :: rest)
        = Outcome.err (makeError NotAStandardQuery "Request is not  a standard query")) ∧
    (f1 >>> 7 = 0 → (f1 >>> 3) &&& 0xF = 0 → (f1 >>> 1) &&& 1 ≠ 0 →
      ParseBuffer (i1 :: i0 :: f1 :: f2 :: q1 :: q0 :: a1 :: a0 :: n1 :: n0 :: r1 :: r0 :: rest)
        = Outcome.err
            (makeError TruncationNotSupported "Request is truncated but its not supported")) ∧
    (f1 >>> 7 = 0 → (f1 >>> 3) &&& 0xF = 0 → (f1 >>> 1) &&& 1 = 0 → beUint16 q1 q0 = 0 →
      ParseBuffer (i1 :: i0 :: f1 :: f2 :: q1 :: q0 :: a1 :: a0 :: n1 :: n0 :: r1 :: r0 :: rest)
        = Outcome.err (makeError NoQuestions "Request has no questions")) ∧
    (f1 >>> 7 = 0 → (f1 >>> 3) &&& 0xF = 0 → (f1 >>> 1) &&& 1 = 0 → beUint16 q1 q0 > 1 →
      ParseBuffer (i1 :: i0 :: f1 :: f2 :: q1 :: q0 :: a1 :: a0 :: n1 :: n0 :: r1 :: r0 :: rest)
        = Outcome.err (makeError MultipleQuestions "Request has multiple questions")) := by
  generalize hB :
    i1 :: i0 :: f1 :: f2 :: q1 :: q0 :: a1 :: a0 :: n1 :: n0 :: r1 :: r0 :: rest = buffer
  have hlen : ¬ buffer.length < 12 := by subst hB; simp
  have hhdr : readHeader buffer = some
      { Id := beUint16 i1 i0, SecondLine1 := f1, SecondLine2 := f2, QdCount := beUint16 q1 q0,
        AnCount := beUint16 a1 a0, NsCount := beUint16 n1 n0, ArCount := beUint16 r1 r0 } := by
    subst hB; rfl
  unfold ParseBuffer
  simp only [hlen, hhdr, if_false]
  refine ⟨?_, ?_, ?_, ?_, ?_⟩
  · intro h1
    simp only [h1, ne_eq, not_false_eq_true, if_true]
  · intro h1 h2
    simp only [h1, h2, ne_eq, not_false_eq_true, not_true_eq_false, if_true, if_false]
  · intro h1 h2 h3
    simp only [h1, h2, h3, ne_eq, not_false_eq_true, not_true_eq_false, if_true, if_false]
  · intro h1 h2 h3 h4
    simp only [h1, h2, h3, h4, ne_eq, not_false_eq_true, not_true_eq_false, if_true, if_false]
  · intro h1 h2 h3 h4
    have h5 : beUint16 q1 q0 ≠ 0 := by omega
    simp only [h1, h2, h3, h4, h5, ne_eq, not_false_eq_true, not_true_eq_false, if_true,
      if_false]

theorem exists_four_of_length (l : List Nat) (h : 4 ≤ l.length) :
    ∃ a b c d e, l = a :: b :: c :: d :: e := by
  rcases l with _ | ⟨a, _ | ⟨b, _ | ⟨c, _ | ⟨d, e⟩⟩⟩⟩ <;>
    first
    | exact ⟨_, _, _, _, _, rfl⟩
    | (simp at h)

/-- After the header checks, `ParseBuffer` either fails with
`FailedParsingBuffer` or the bytes after the header are an encoded name
followed by at least four bytes. -/
theorem ParseBuffer_body (i1 i0 f1 f2 a1 a0 n1 n0 r1 r0 : Nat) (rest : List Nat)
    (hqr : f1 >>> 7 = 0) (hop : (f1 >>> 3) &&& 0xF = 0) (htc : (f1 >>> 1) &&& 1 = 0) :
    (∃ msg, ParseBuffer (i1 :: i0 :: f1 :: f2 :: 0 :: 1 :: a1 :: a0 :: n1 :: n0 :: r1 :: r0 :: rest)
        = Outcome.err (makeError FailedParsingBuffer msg)) ∨
    ∃ labels t1 t0 c1 c0 extra,
      rest = encodeName labels ++ (t1 :: t0 :: c1 :: c0 :: extra) ∧
      ∀ l ∈ labels, l ≠ [] ∧
        l.length ∈ i1 :: i0 :: f1 :: f2 :: 0 :: 1 :: a1 :: a0 :: n1 :: n0 :: r1 :: r0 :: rest := by
  have hrest : (i1 :: i0 :: f1 :: f2 :: 0 :: 1 :: a1 :: a0 :: n1 :: n0 :: r1 :: r0 :: rest).drop 12
      = rest := rfl
  generalize hB :
    i1 :: i0 :: f1 :: f2 :: 0 :: 1 :: a1 :: a0 :: n1 :: n0 :: r1 :: r0 :: rest = buffer at hrest ⊢
  have hlen : ¬ buffer.length < 12 := by subst hB; simp
  have hhdr : readHeader buffer = some
      { Id := beUint16 i1 i0, SecondLine1 := f1, SecondLine2 := f2, QdCount := 1,
        AnCount := beUint16 a1 a0, NsCount := beUint16 n1 n0, ArCount := beUint16 r1 r0 } := by
    subst hB; rfl
  have hqd0 : ¬ ((1 : Nat) = 0) := by omega
  have hqd1 : ¬ ((1 : Nat) > 1) := by omega
  by_cases h13 : buffer.length < 13
  · left
    refine ⟨"Buffer too small #1", ?_⟩
    unfold ParseBuffer
    simp only [hlen, hhdr, if_false, hqr, hop, htc, ne_eq, not_true_eq_false, hqd0, hqd1, h13,
      if_true]
  · have hx : buffer[12]? = some (buffer[12]) := List.getElem?_eq_getElem (by omega)
    rcases labelLoop_sound buffer buffer.length 12 (buffer[12]) [] hx (by omega) with
      herr | ⟨pos', labels, hok, hlt, hlab, hdec⟩
    · left
      refine ⟨"Buffer too small #2", ?_⟩
      unfold ParseBuffer
      simp only [hlen, hhdr, if_false, hqr, hop, htc, ne_eq, not_true_eq_false, hqd0, hqd1, h13,
        hx, herr]
    · by_cases htail : pos' + 1 + 4 > buffer.length
      · left
        refine ⟨"Buffer too small #3", ?_⟩
        unfold ParseBuffer
        simp only [hlen, hhdr, if_false, hqr, hop, htc, ne_eq, not_true_eq_false, hqd0, hqd1,
          h13, hx, hok]
        unfold parseQuestionTail
        simp only [htail, if_true]
      · right
        obtain ⟨t1, t0, c1, c0, extra, hex⟩ :=
          exists_four_of_length (buffer.drop (pos' + 1)) (by simp; omega)
        refine ⟨labels, t1, t0, c1, c0, extra, ?_, hlab⟩
        rw [← hrest, hdec, hex]

theorem flags_pass (f : Nat) (hf : f < 256) (hqr : f.testBit 7 = false)
    (hop : ∀ i ∈ [3, 4, 5, 6], f.testBit i = false) (htc : f.testBit 1 = false) :
    f >>> 7 = 0 ∧ (f >>> 3) &&& 0xF = 0 ∧ (f >>> 1) &&& 1 = 0 := by
  obtain ⟨h1, h2, h3⟩ := flag_bits f hf
  refine ⟨?_, ?_, ?_⟩
  · by_contra h
    rw [h1.mp h] at hqr
    cases hqr
  · by_contra h
    exact h2.mp h hop
  · by_contra h
    rw [h3.mp h] at htc
    cases htc

theorem beUint16_eq_one (hi lo : Nat) (h : beUint16 hi lo = 1) : hi = 0 ∧ lo = 1 := by
  unfold beUint16 at h
  omega

theorem ParseBuffer_short (buffer : List Nat) (h : buffer.length < 12) :
    ParseBuffer buffer = Outcome.err (makeError FailedParsingBuffer "Buffer too small") := by
  unfold ParseBuffer
  simp only [h, if_true]

/-- What `ParseBuffer` accepts: a header that passes the checks, an encoded
name, QTYPE = 1, QCLASS = 1, and any further bytes; and what it returns. -/
theorem ParseBuffer_ok_inv (buffer : List Nat) (q : question)
    (h : ParseBuffer buffer = Outcome.ok q) :
    ∃ i1 i0 f1 f2 a1 a0 n1 n0 r1 r0 labels extra,
      buffer = [i1, i0, f1, f2, 0, 1, a1, a0, n1, n0, r1, r0]
        ++ (encodeName labels ++ (0 :: 1 :: 0 :: 1 :: extra)) ∧
      f1 >>> 7 = 0 ∧ (f1 >>> 3) &&& 0xF = 0 ∧ (f1 >>> 1) &&& 1 = 0 ∧
      (∀ l ∈ labels, l ≠ [] ∧ l.length ∈ buffer) ∧
      q = { id := beUint16 i1 i0, qname := joinLabels labels,
            question := encodeName labels ++ [0, 1, 0, 1], questionName := encodeName labels } := by
  have hlen : 12 ≤ buffer.length := by
    by_contra hlt
    rw [ParseBuffer_short buffer (by omega)] at h
    cases h
  obtain ⟨i1, i0, f1, f2, q1, q0, a1, a0, n1, n0, r1, r0, rest, rfl⟩ :=
    exists_header_of_length buffer hlen
  obtain ⟨c1, c2, c3, c4, c5⟩ := ParseBuffer_header_checks i1 i0 f1 f2 q1 q0 a1 a0 n1 n0 r1 r0 rest
  have hqr : f1 >>> 7 = 0 := by
    by_contra hc
    rw [c1 hc] at h
    cases h
  have hop : (f1 >>> 3) &&& 0xF = 0 := by
    by_contra hc
    rw [c2 hqr hc] at h
    cases h
  have htc : (f1 >>> 1) &&& 1 = 0 := by
    by_contra hc
    rw [c3 hqr hop hc] at h
    cases h
  have hqd : beUint16 q1 q0 = 1 := by
    by_contra hc
    rcases Nat.lt_or_gt_of_ne hc with hlt | hgt
    · rw [c4 hqr hop htc (by omega)] at h
      cases h
    · rw [c5 hqr hop htc hgt] at h
      cases h
  obtain ⟨rfl, rfl⟩ := beUint16_eq_one q1 q0 hqd
  rcases ParseBuffer_body i1 i0 f1 f2 a1 a0 n1 n0 r1 r0 rest hqr hop htc with
    ⟨msg, herr⟩ | ⟨labels, t1, t0, d1, d0, extra, hrest, hlab⟩
  · rw [herr] at h
    cases h
  · subst hrest
    have hne : ∀ l ∈ labels, l ≠ [] := fun l hl => (hlab l hl).1
    have hval := ParseBuffer_of_wire i1 i0 f1 f2 a1 a0 n1 n0 r1 r0 t1 t0 d1 d0 labels extra
      hqr hop htc hne
    simp only [List.cons_append, List.nil_append] at hval
    rw [hval] at h
    by_cases hclass : beUint16 d1 d0 = 1
    · by_cases htype : beUint16 t1 t0 = 1
      · simp only [hclass, htype, ne_eq, not_true_eq_false, if_false] at h
        obtain ⟨rfl, rfl⟩ := beUint16_eq_one d1 d0 hclass
        obtain ⟨rfl, rfl⟩ := beUint16_eq_one t1 t0 htype
        refine ⟨i1, i0, f1, f2, a1, a0, n1, n0, r1, r0, labels, extra, ?_, hqr, hop, htc, ?_, ?_⟩
        · simp
        · simpa using hlab
        · cases h
          rfl
      · simp only [hclass, htype, ne_eq, not_true_eq_false, not_false_eq_true, if_false,
          if_true] at h
        cases h
    · simp only [hclass, ne_eq, not_false_eq_true, if_true] at h
      cases h

theorem ParseBuffer_ok_id_lt (buffer : List Nat) (q : question) (hb : IsBytes buffer)
    (h : ParseBuffer buffer = Outcome.ok q) :
    q.id = beUint16 (buffer.getD 0 0) (buffer.getD 1 0) ∧ q.id < 65536 := by
  obtain ⟨i1, i0, f1, f2, a1, a0, n1, n0, r1, r0, labels, extra, rfl, -, -, -, -, rfl⟩ :=
    ParseBuffer_ok_inv buffer q h
  have h1 : i1 < 256 := hb i1 (by simp)
  have h0 : i0 < 256 := hb i0 (by simp)
  refine ⟨by simp, ?_⟩
  simp only [beUint16]
  omega

theorem MakeResponse_dottedQuad (q : question) (a b c d : Nat) (ha : a < 256) (hb : b < 256)
    (hc : c < 256) (hd : d < 256) :
    MakeResponse q (dottedQuad a b c d) =
      some ([q.id / 256 % 256, q.id % 256, 128, 0, 0, 1, 0, 1, 0, 0, 0, 0] ++ q.question
        ++ q.questionName ++ [0, 1, 0, 1, 0, 0, 0, 60, 0, 4, a, b, c, d]) := by
  unfold MakeResponse
  simp only [ParseIPTo4_dottedQuad a b c d ha hb hc hd]
  simp [writeHeader, writeResourceRecord, putUint16, putUint32]

theorem MakeEmptyResponse_bytes (q : question) :
    MakeEmptyResponse q =
      [q.id / 256 % 256, q.id % 256, 128, 0, 0, 1, 0, 0, 0, 0, 0, 0] ++ q.question := by
  unfold MakeEmptyResponse
  simp [writeHeader, putUint16]

/-! ## The claims -/

/-- C1: a well-formed single-question A/IN query (a 16-bit id, a flags byte
with QR, opcode and truncation bits clear, any second flags byte,
QDCOUNT = 1, any other counts, labels of 1 to 255 bytes, QTYPE = QCLASS = 1)
is accepted by `ParseBuffer`; the question has that id, the labels joined
with `.` as its name, the buffer from offset 12 as raw question bytes and the
encoded name (offset 12 through the terminating zero byte) as raw name
bytes. -/
theorem ParseBuffer_wellFormed_query (id f1 f2 a1 a0 n1 n0 r1 r0 : Nat)
    (labels : List (List Nat)) (hid : id < 65536) (hf : f1 < 256)
    (hqr : f1.testBit 7 = false) (hop : ∀ i ∈ [3, 4, 5, 6], f1.testBit i = false)
    (htc : f1.testBit 1 = false) (hlab : ∀ l ∈ labels, 1 ≤ l.length ∧ l.length ≤ 255) :
    ∃ q, ParseBuffer (putUint16 id ++ [f1, f2, 0, 1, a1, a0, n1, n0, r1, r0]
          ++ encodeName labels ++ [0, 1, 0, 1]) = Outcome.ok q ∧
      q.Id = id ∧ q.QName = joinLabels labels ∧
      q.question = (putUint16 id ++ [f1, f2, 0, 1, a1, a0, n1, n0, r1, r0]
          ++ encodeName labels ++ [0, 1, 0, 1]).drop 12 ∧
      q.questionName = ((putUint16 id ++ [f1, f2, 0, 1, a1, a0, n1, n0, r1, r0]
          ++ encodeName labels ++ [0, 1, 0, 1]).drop 12).take (encodeName labels).length ∧
      q.questionName = encodeName labels := by
  obtain ⟨h1, h2, h3⟩ := flags_pass f1 hf hqr hop htc
  have hne : ∀ l ∈ labels, l ≠ [] := by
    intro l hl h0
    have := (hlab l hl).1
    rw [h0] at this
    simp at this
  have hmod : id / 256 % 256 = id / 256 := Nat.mod_eq_of_lt (by omega)
  have hbuf : putUint16 id ++ [f1, f2, 0, 1, a1, a0, n1, n0, r1, r0] ++ encodeName labels
      ++ [0, 1, 0, 1]
      = [id / 256, id % 256, f1, f2, 0, 1, a1, a0, n1, n0, r1, r0]
        ++ (encodeName labels ++ [0, 1, 0, 1]) := by
    simp [putUint16, hmod]
  have hval := ParseBuffer_of_wire (id / 256) (id % 256) f1 f2 a1 a0 n1 n0 r1 r0 0 1 0 1 labels []
    h1 h2 h3 hne
  have hone : beUint16 0 1 = 1 := rfl
  simp only [hone, ne_eq, not_true_eq_false, if_false] at hval
  rw [hbuf]
  refine ⟨_, hval, ?_, rfl, ?_, ?_, rfl⟩
  · simp only [question.Id, beUint16]
    omega
  · simp
  · simp

/-- C1, at the query with id 0x1234, flags 05 20, counts 1, 2, 3, 4 and the
name `www.a`. -/
theorem ParseBuffer_wellFormed_query_witness :
    ∃ q, ParseBuffer (putUint16 4660 ++ [5, 32, 0, 1, 0, 2, 0, 3, 0, 4]
          ++ encodeName [[119, 119, 119], [97]] ++ [0, 1, 0, 1]) = Outcome.ok q ∧
      q.Id = 4660 ∧ q.QName = joinLabels [[119, 119, 119], [97]] ∧
      q.question = (putUint16 4660 ++ [5, 32, 0, 1, 0, 2, 0, 3, 0, 4]
          ++ encodeName [[119, 119, 119], [97]] ++ [0, 1, 0, 1]).drop 12 ∧
      q.questionName = ((putUint16 4660 ++ [5, 32, 0, 1, 0, 2, 0, 3, 0, 4]
          ++ encodeName [[119, 119, 119], [97]] ++ [0, 1, 0, 1]).drop 12).take
            (encodeName [[119, 119, 119], [97]]).length ∧
      q.questionName = encodeName [[119, 119, 119], [97]] :=
  ParseBuffer_wellFormed_query 4660 5 32 0 2 0 3 0 4 [[119, 119, 119], [97]]
    (by decide) (by decide) (by decide) (by decide) (by decide) (by decide)

/-- C2, as the spec states it, fails: on the scenario query and the address
`1.2.3.4` the output of `MakeResponse` is not header + question section +
14-byte record, and its length is not 12 + 9 + 14; the name bytes stand
between the question section and the record. -/
theorem MakeResponse_no_owner_name_counterexample :
    ParseBuffer wwwQuery = Outcome.ok wwwQuestion ∧
    MakeResponse wwwQuestion (dottedQuad 1 2 3 4) ≠
      some ([0, 1, 128, 0, 0, 1, 0, 1, 0, 0, 0, 0] ++ wwwQuestion.question
        ++ [0, 1, 0, 1, 0, 0, 0, 60, 0, 4, 1, 2, 3, 4]) ∧
    (MakeResponse wwwQuestion (dottedQuad 1 2 3 4)).map List.length ≠
      some (12 + wwwQuestion.question.length + 14) ∧
    MakeResponse wwwQuestion (dottedQuad 1 2 3 4) =
      some ([0, 1, 128, 0, 0, 1, 0, 1, 0, 0, 0, 0] ++ wwwQuestion.question
        ++ [3, 119, 119, 119, 0] ++ [0, 1, 0, 1, 0, 0, 0, 60, 0, 4, 1, 2, 3, 4]) := by
  decide

/-- C2, amended: for a question `q` returned by `ParseBuffer` and a dotted
quad `a.b.c.d`, `MakeResponse` gives the 12-byte header (id, 0x80, 0x00,
QDCOUNT 1, ANCOUNT 1, NSCOUNT 0, ARCOUNT 0), the raw question section, the
raw name bytes of the question as the owner name of the record, and the
14-byte record; its length is 12 + len(question) + len(name) + 14. -/
theorem MakeResponse_bytes (buffer : List Nat) (q : question) (a b c d : Nat)
    (hbytes : IsBytes buffer) (hq : ParseBuffer buffer = Outcome.ok q)
    (ha : a < 256) (hb : b < 256) (hc : c < 256) (hd : d < 256) :
    MakeResponse q (dottedQuad a b c d) =
      some ([q.Id / 256, q.Id % 256, 0x80, 0x00, 0, 1, 0, 1, 0, 0, 0, 0] ++ q.question
        ++ q.questionName ++ [0, 1, 0, 1, 0, 0, 0, 0x3C, 0, 4, a, b, c, d]) ∧
    (MakeResponse q (dottedQuad a b c d)).map List.length =
      some (12 + q.question.length + q.questionName.length + 14) := by
  obtain ⟨-, hlt⟩ := ParseBuffer_ok_id_lt buffer q hbytes hq
  have hmod : q.id / 256 % 256 = q.id / 256 := Nat.mod_eq_of_lt (by omega)
  rw [MakeResponse_dottedQuad q a b c d ha hb hc hd, hmod]
  refine ⟨rfl, ?_⟩
  simp
  omega

/-- C2 amended, at the scenario query and the address `1.2.3.4`. -/
theorem MakeResponse_bytes_witness :
    IsBytes wwwQuery ∧ ParseBuffer wwwQuery = Outcome.ok wwwQuestion ∧
    MakeResponse wwwQuestion (dottedQuad 1 2 3 4) =
      some ([wwwQuestion.Id / 256, wwwQuestion.Id % 256, 0x80, 0x00, 0, 1, 0, 1, 0, 0, 0, 0]
        ++ wwwQuestion.question ++ wwwQuestion.questionName
        ++ [0, 1, 0, 1, 0, 0, 0, 0x3C, 0, 4, 1, 2, 3, 4]) ∧
    (MakeResponse wwwQuestion (dottedQuad 1 2 3 4)).map List.length =
      some (12 + wwwQuestion.question.length + wwwQuestion.questionName.length + 14) :=
  ⟨by decide, by decide,
    MakeResponse_bytes wwwQuery wwwQuestion 1 2 3 4 (by decide) (by decide) (by decide)
      (by decide) (by decide) (by decide)⟩

/-- C3: for a question `q` returned by `ParseBuffer` and a dotted quad
`a.b.c.d`, the output of `MakeResponse` starts with the id of `q` in
big-endian order, has bit 7 of byte 2 set and ends in the bytes a, b, c, d. -/
theorem MakeResponse_id_qr_rdata (buffer : List Nat) (q : question) (a b c d : Nat)
    (hbytes : IsBytes buffer) (hq : ParseBuffer buffer = Outcome.ok q)
    (ha : a < 256) (hb : b < 256) (hc : c < 256) (hd : d < 256) :
    ∃ out, MakeResponse q (dottedQuad a b c d) = some out ∧
      q.Id < 65536 ∧ out.take 2 = [q.Id / 256, q.Id % 256] ∧
      (out.getD 2 0).testBit 7 = true ∧
      out.drop (out.length - 4) = [a, b, c, d] := by
  obtain ⟨-, hlt⟩ := ParseBuffer_ok_id_lt buffer q hbytes hq
  have hmod : q.id / 256 % 256 = q.id / 256 := Nat.mod_eq_of_lt (by omega)
  refine ⟨_, MakeResponse_dottedQuad q a b c d ha hb hc hd, hlt, ?_, ?_, ?_⟩
  · simp [question.Id, hmod]
  · simp
    decide
  · have hsplit : ∀ (pre : List Nat), (pre ++ [a, b, c, d]).drop ((pre ++ [a, b, c, d]).length - 4)
        = [a, b, c, d] := by
      intro pre
      have : (pre ++ [a, b, c, d]).length - 4 = pre.length := by simp
      rw [this, List.drop_left]
    have := hsplit ([q.id / 256 % 256, q.id % 256, 128, 0, 0, 1, 0, 1, 0, 0, 0, 0] ++ q.question
        ++ q.questionName ++ [0, 1, 0, 1, 0, 0, 0, 60, 0, 4])
    simpa using this

/-- C3, at the scenario query and the address `1.2.3.4`: the response ends
in 01 02 03 04. -/
theorem MakeResponse_id_qr_rdata_witness :
    IsBytes wwwQuery ∧ ParseBuffer wwwQuery = Outcome.ok wwwQuestion ∧
    ∃ out, MakeResponse wwwQuestion (dottedQuad 1 2 3 4) = some out ∧
      wwwQuestion.Id < 65536 ∧ out.take 2 = [wwwQuestion.Id / 256, wwwQuestion.Id % 256] ∧
      (out.getD 2 0).testBit 7 = true ∧
      out.drop (out.length - 4) = [1, 2, 3, 4] :=
  ⟨by decide, by decide,
    MakeResponse_id_qr_rdata wwwQuery wwwQuestion 1 2 3 4 (by decide) (by decide) (by decide)
      (by decide) (by decide) (by decide)⟩

/-- C4: for a question `q` returned by `ParseBuffer`, `MakeEmptyResponse` is
the 12 bytes id high, id low, 0x80, 0x00, 00 01, 00 00, 00 00, 00 00 followed
by the raw question section of `q` and nothing else. -/
theorem MakeEmptyResponse_exact (buffer : List Nat) (q : question) (hbytes : IsBytes buffer)
    (hq : ParseBuffer buffer = Outcome.ok q) :
    MakeEmptyResponse q =
      [q.Id / 256, q.Id % 256, 0x80, 0x00, 0, 1, 0, 0, 0, 0, 0, 0] ++ q.question := by
  obtain ⟨-, hlt⟩ := ParseBuffer_ok_id_lt buffer q hbytes hq
  have hmod : q.id / 256 % 256 = q.id / 256 := Nat.mod_eq_of_lt (by omega)
  rw [MakeEmptyResponse_bytes, hmod]
  rfl

/-- C4, at the scenario query. -/
theorem MakeEmptyResponse_exact_witness :
    IsBytes wwwQuery ∧ ParseBuffer wwwQuery = Outcome.ok wwwQuestion ∧
    MakeEmptyResponse wwwQuestion =
      [wwwQuestion.Id / 256, wwwQuestion.Id % 256, 0x80, 0x00, 0, 1, 0, 0, 0, 0, 0, 0]
        ++ wwwQuestion.question :=
  ⟨by decide, by decide, MakeEmptyResponse_exact wwwQuery wwwQuestion (by decide) (by decide)⟩

/-- C5: on every buffer shorter than 12 bytes, whatever its bytes,
`ParseBuffer` returns no question and the error `FailedParsingBuffer`, which
is none of the later error kinds. -/
theorem ParseBuffer_short_buffer (buffer : List Nat) (hlen : buffer.length < 12) :
    ParseBuffer buffer = Outcome.err (makeError FailedParsingBuffer "Buffer too small") ∧
    (makeError FailedParsingBuffer "Buffer too small").Code = FailedParsingBuffer ∧
    (makeError FailedParsingBuffer "Buffer too small").Code ∉ laterErrorKinds :=
  ⟨ParseBuffer_short buffer hlen, rfl, by decide⟩

/-- C5, at an 11-byte buffer whose QR, opcode and truncation bits are set and
whose QDCOUNT is 2. -/
theorem ParseBuffer_short_buffer_witness :
    [0, 1, 250, 0, 0, 2, 0, 0, 0, 0, 0].length < 12 ∧
    ParseBuffer [0, 1, 250, 0, 0, 2, 0, 0, 0, 0, 0]
      = Outcome.err (makeError FailedParsingBuffer "Buffer too small") ∧
    (makeError FailedParsingBuffer "Buffer too small").Code = FailedParsingBuffer ∧
    (makeError FailedParsingBuffer "Buffer too small").Code ∉ laterErrorKinds :=
  ⟨by decide, ParseBuffer_short_buffer [0, 1, 250, 0, 0, 2, 0, 0, 0, 0, 0] (by decide)⟩

/-- C6: on every buffer of at least 12 bytes the flag checks run in the order
QR, opcode, truncation and the first failing one decides the error:
`NotAQuestion` if bit 7 of byte 2 is set, else `NotAStandardQuery` if bits 3-6
are not all zero, else `TruncationNotSupported` if bit 1 is set; whatever the
count fields and the bytes after the header are. -/
theorem ParseBuffer_flag_checks (buffer : List Nat) (hbytes : IsBytes buffer)
    (hlen : 12 ≤ buffer.length) :
    (QRSet buffer →
      ParseBuffer buffer = Outcome.err (makeError NotAQuestion "Request is not a query")) ∧
    (¬ QRSet buffer → ¬ OpcodeZero buffer →
      ParseBuffer buffer
        = Outcome.err (makeError NotAStandardQuery "Request is not  a standard query")) ∧
    (¬ QRSet buffer → OpcodeZero buffer → TCSet buffer →
      ParseBuffer buffer = Outcome.err
        (makeError TruncationNotSupported "Request is truncated but its not supported")) := by
  obtain ⟨i1, i0, f1, f2, q1, q0, a1, a0, n1, n0, r1, r0, rest, rfl⟩ :=
    exists_header_of_length buffer hlen
  have hf : f1 < 256 := hbytes f1 (by simp)
  obtain ⟨c1, c2, c3, -, -⟩ := ParseBuffer_header_checks i1 i0 f1 f2 q1 q0 a1 a0 n1 n0 r1 r0 rest
  obtain ⟨b1, b2, b3⟩ := flag_bits f1 hf
  have hflag : flagsByte (i1 :: i0 :: f1 :: f2 :: q1 :: q0 :: a1 :: a0 :: n1 :: n0 :: r1 :: r0
      :: rest) = f1 := rfl
  simp only [QRSet, OpcodeZero, TCSet, hflag]
  refine ⟨?_, ?_, ?_⟩
  · intro h
    exact c1 (b1.mpr h)
  · intro h1 h2
    exact c2 (by_contra fun h => h1 (b1.mp h)) (b2.mpr h2)
  · intro h1 h2 h3
    exact c3 (by_contra fun h => h1 (b1.mp h)) (by_contra fun h => b2.mp h h2) (b3.mpr h3)

/-- C6, at a 12-byte header whose flags byte has opcode 2 and the truncation
bit, with QDCOUNT = 0: the opcode check decides. -/
theorem ParseBuffer_flag_checks_witness :
    IsBytes [0, 1, 18, 0, 0, 0, 0, 0, 0, 0, 0, 0] ∧
    12 ≤ [0, 1, 18, 0, 0, 0, 0, 0, 0, 0, 0, 0].length ∧
    ParseBuffer [0, 1, 18, 0, 0, 0, 0, 0, 0, 0, 0, 0]
      = Outcome.err (makeError NotAStandardQuery "Request is not  a standard query") :=
  ⟨by decide, by decide,
    (ParseBuffer_flag_checks [0, 1, 18, 0, 0, 0, 0, 0, 0, 0, 0, 0] (by decide) (by decide)).2.1
      (by decide) (by decide)⟩

/-- C7: on every buffer of at least 12 bytes whose QR, opcode and truncation
bits are zero, QDCOUNT = 0 gives `NoQuestions` and QDCOUNT > 1 gives
`MultipleQuestions`, whatever the rest of the buffer is; so a buffer is
accepted only if QDCOUNT = 1. -/
theorem ParseBuffer_qdcount (buffer : List Nat) (hbytes : IsBytes buffer)
    (hlen : 12 ≤ buffer.length) (hqr : ¬ QRSet buffer) (hop : OpcodeZero buffer)
    (htc : ¬ TCSet buffer) :
    (qdCount buffer = 0 →
      ParseBuffer buffer = Outcome.err (makeError NoQuestions "Request has no questions")) ∧
    (qdCount buffer > 1 →
      ParseBuffer buffer
        = Outcome.err (makeError MultipleQuestions "Request has multiple questions")) ∧
    ((∃ q, ParseBuffer buffer = Outcome.ok q) → qdCount buffer = 1) := by
  obtain ⟨i1, i0, f1, f2, q1, q0, a1, a0, n1, n0, r1, r0, rest, rfl⟩ :=
    exists_header_of_length buffer hlen
  have hf : f1 < 256 := hbytes f1 (by simp)
  obtain ⟨-, -, -, c4, c5⟩ := ParseBuffer_header_checks i1 i0 f1 f2 q1 q0 a1 a0 n1 n0 r1 r0 rest
  have hflag : flagsByte (i1 :: i0 :: f1 :: f2 :: q1 :: q0 :: a1 :: a0 :: n1 :: n0 :: r1 :: r0
      :: rest) = f1 := rfl
  have hqd : qdCount (i1 :: i0 :: f1 :: f2 :: q1 :: q0 :: a1 :: a0 :: n1 :: n0 :: r1 :: r0
      :: rest) = beUint16 q1 q0 := rfl
  simp only [QRSet, OpcodeZero, TCSet, hflag] at hqr hop htc
  obtain ⟨h1, h2, h3⟩ := flags_pass f1 hf (by simpa using hqr) hop (by simpa using htc)
  rw [hqd]
  refine ⟨c4 h1 h2 h3, c5 h1 h2 h3, ?_⟩
  rintro ⟨q, hq⟩
  by_contra hne
  rcases Nat.lt_or_gt_of_ne hne with hlt | hgt
  · rw [c4 h1 h2 h3 (by omega)] at hq
    cases hq
  · rw [c5 h1 h2 h3 hgt] at hq
    cases hq

/-- C7, at the scenario query with QDCOUNT = 2: `MultipleQuestions`. -/
theorem ParseBuffer_qdcount_witness :
    IsBytes twoQuestionsQuery ∧ 12 ≤ twoQuestionsQuery.length ∧
    ParseBuffer twoQuestionsQuery
      = Outcome.err (makeError MultipleQuestions "Request has multiple questions") :=
  ⟨by decide, by decide,
    (ParseBuffer_qdcount twoQuestionsQuery (by decide) (by decide) (by decide) (by decide)
      (by decide)).2.1 (by decide)⟩

/-- C8: on every buffer of at least 12 bytes that passes the header checks,
if the bytes from offset 12 are not a complete sequence of length-prefixed
labels ended by a zero-length label and followed by at least 4 more bytes,
`ParseBuffer` fails with `FailedParsingBuffer`. -/
theorem ParseBuffer_incomplete_question (buffer : List Nat) (hbytes : IsBytes buffer)
    (hlen : 12 ≤ buffer.length) (hpass : PassesHeaderChecks buffer)
    (hinc : ¬ CompleteQuestion (buffer.drop 12)) :
    ∃ msg, ParseBuffer buffer = Outcome.err (makeError FailedParsingBuffer msg) := by
  obtain ⟨i1, i0, f1, f2, q1, q0, a1, a0, n1, n0, r1, r0, rest, rfl⟩ :=
    exists_header_of_length buffer hlen
  have hf : f1 < 256 := hbytes f1 (by simp)
  have hflag : flagsByte (i1 :: i0 :: f1 :: f2 :: q1 :: q0 :: a1 :: a0 :: n1 :: n0 :: r1 :: r0
      :: rest) = f1 := rfl
  have hqd : qdCount (i1 :: i0 :: f1 :: f2 :: q1 :: q0 :: a1 :: a0 :: n1 :: n0 :: r1 :: r0
      :: rest) = beUint16 q1 q0 := rfl
  obtain ⟨hqr, hop, htc, hq1⟩ := hpass
  simp only [QRSet, OpcodeZero, TCSet, hflag] at hqr hop htc
  rw [hqd] at hq1
  obtain ⟨h1, h2, h3⟩ := flags_pass f1 hf (by simpa using hqr) hop (by simpa using htc)
  obtain ⟨rfl, rfl⟩ := beUint16_eq_one q1 q0 hq1
  rcases ParseBuffer_body i1 i0 f1 f2 a1 a0 n1 n0 r1 r0 rest h1 h2 h3 with
    herr | ⟨labels, t1, t0, c1, c0, extra, hrest, hlab⟩
  · exact herr
  · exfalso
    apply hinc
    refine ⟨labels, t1 :: t0 :: c1 :: c0 :: extra, ?_, by simp, ?_⟩
    · intro l hl
      obtain ⟨hne, hmem⟩ := hlab l hl
      have hlt := hbytes _ hmem
      have hpos : 0 < l.length := List.length_pos.mpr hne
      omega
    · simpa using hrest

/-- C8, at a buffer whose only label announces 200 bytes and has 6. -/
theorem ParseBuffer_incomplete_question_witness :
    IsBytes [0, 1, 0, 0, 0, 1, 0, 0, 0, 0, 0, 0, 200, 1, 2, 3, 4, 5, 6] ∧
    PassesHeaderChecks [0, 1, 0, 0, 0, 1, 0, 0, 0, 0, 0, 0, 200, 1, 2, 3, 4, 5, 6] ∧
    ∃ msg, ParseBuffer [0, 1, 0, 0, 0, 1, 0, 0, 0, 0, 0, 0, 200, 1, 2, 3, 4, 5, 6]
      = Outcome.err (makeError FailedParsingBuffer msg) :=
  ⟨by decide, by decide,
    ParseBuffer_incomplete_question [0, 1, 0, 0, 0, 1, 0, 0, 0, 0, 0, 0, 200, 1, 2, 3, 4, 5, 6]
      (by decide) (by decide) (by decide) (by
        rintro ⟨labels, extra, -, -, heq⟩
        cases labels with
        | nil => simp [encodeName] at heq
        | cons l ls =>
          simp only [List.drop, encodeName, List.cons_append, List.cons.injEq] at heq
          have hlen := congrArg List.length heq.2
          simp at hlen
          omega)⟩

/-- C9: on every buffer that passes the header checks and holds a complete
question (labels, terminating zero, QTYPE, QCLASS), `ParseBuffer` fails with
`QClassNotInet` if QCLASS is not 1 (whatever QTYPE is), fails with
`QTypeNotAddress` if QCLASS is 1 and QTYPE is not 1, and succeeds exactly
when both are 1. -/
theorem ParseBuffer_qclass_qtype (buffer : List Nat) (labels : List (List Nat))
    (t1 t0 c1 c0 : Nat) (extra : List Nat) (hbytes : IsBytes buffer)
    (hlen : 12 ≤ buffer.length) (hpass : PassesHeaderChecks buffer)
    (hlab : ∀ l ∈ labels, l ≠ [])
    (hq : buffer.drop 12 = encodeName labels ++ t1 :: t0 :: c1 :: c0 :: extra) :
    (beUint16 c1 c0 ≠ 1 →
      ParseBuffer buffer = Outcome.err (makeError QClassNotInet "QClass is not an IN")) ∧
    (beUint16 c1 c0 = 1 → beUint16 t1 t0 ≠ 1 →
      ParseBuffer buffer
        = Outcome.err (makeError QTypeNotAddress "QType not a host adddress (A)")) ∧
    ((∃ q, ParseBuffer buffer = Outcome.ok q) ↔ beUint16 t1 t0 = 1 ∧ beUint16 c1 c0 = 1) := by
  obtain ⟨i1, i0, f1, f2, q1, q0, a1, a0, n1, n0, r1, r0, rest, rfl⟩ :=
    exists_header_of_length buffer hlen
  have hf : f1 < 256 := hbytes f1 (by simp)
  have hflag : flagsByte (i1 :: i0 :: f1 :: f2 :: q1 :: q0 :: a1 :: a0 :: n1 :: n0 :: r1 :: r0
      :: rest) = f1 := rfl
  have hqd : qdCount (i1 :: i0 :: f1 :: f2 :: q1 :: q0 :: a1 :: a0 :: n1 :: n0 :: r1 :: r0
      :: rest) = beUint16 q1 q0 := rfl
  obtain ⟨hqr, hop, htc, hq1⟩ := hpass
  simp only [QRSet, OpcodeZero, TCSet, hflag] at hqr hop htc
  rw [hqd] at hq1
  obtain ⟨h1, h2, h3⟩ := flags_pass f1 hf (by simpa using hqr) hop (by simpa using htc)
  obtain ⟨rfl, rfl⟩ := beUint16_eq_one q1 q0 hq1
  have hrest : rest = encodeName labels ++ t1 :: t0 :: c1 :: c0 :: extra := by simpa using hq
  subst hrest
  have hval := ParseBuffer_of_wire i1 i0 f1 f2 a1 a0 n1 n0 r1 r0 t1 t0 c1 c0 labels extra
    h1 h2 h3 hlab
  simp only [List.cons_append, List.nil_append] at hval
  rw [hval]
  refine ⟨?_, ?_, ?_⟩
  · intro hc
    simp only [hc, ne_eq, not_false_eq_true, if_true]
  · intro hc ht
    simp only [hc, ht, ne_eq, not_false_eq_true, not_true_eq_false, if_true, if_false]
  · constructor
    · rintro ⟨q, hq⟩
      by_cases hc : beUint16 c1 c0 = 1
      · by_cases ht : beUint16 t1 t0 = 1
        · exact ⟨ht, hc⟩
        · simp only [hc, ht, ne_eq, not_false_eq_true, not_true_eq_false, if_true, if_false] at hq
          cases hq
      · simp only [hc, ne_eq, not_false_eq_true, if_true] at hq
        cases hq
    · rintro ⟨ht, hc⟩
      simp only [hc, ht, ne_eq, not_true_eq_false, if_false]
      exact ⟨_, rfl⟩

/-- C9, at the scenario query with QTYPE = 28 and QCLASS = 3: the class
decides, `QClassNotInet`. -/
theorem ParseBuffer_qclass_qtype_witness :
    IsBytes [0, 1, 0, 0, 0, 1, 0, 0, 0, 0, 0, 0, 3, 119, 119, 119, 0, 0, 28, 0, 3] ∧
    PassesHeaderChecks [0, 1, 0, 0, 0, 1, 0, 0, 0, 0, 0, 0, 3, 119, 119, 119, 0, 0, 28, 0, 3] ∧
    ParseBuffer [0, 1, 0, 0, 0, 1, 0, 0, 0, 0, 0, 0, 3, 119, 119, 119, 0, 0, 28, 0, 3]
      = Outcome.err (makeError QClassNotInet "QClass is not an IN") :=
  ⟨by decide, by decide,
    (ParseBuffer_qclass_qtype
      [0, 1, 0, 0, 0, 1, 0, 0, 0, 0, 0, 0, 3, 119, 119, 119, 0, 0, 28, 0, 3]
      [[119, 119, 119]] 0 28 0 3 [] (by decide) (by decide) (by decide) (by decide)
      (by decide)).1 (by decide)⟩

/-- C10: for every resolution table and every datagram, if `ParseBuffer`
returns an error then `handleRequest` writes no datagram, and if
`handleRequest` writes a datagram then `ParseBuffer` returned a question. -/
theorem handleRequest_error_no_reply {Addr : Type} (hostMap : HostMap) (addr : Addr)
    (buffer : List Nat) :
    (∀ e, ParseBuffer buffer = Outcome.err e → handleRequest hostMap addr buffer = some []) ∧
    (∀ w ws, handleRequest hostMap addr buffer = some (w :: ws) →
      ∃ q, ParseBuffer buffer = Outcome.ok q) := by
  refine ⟨?_, ?_⟩
  · intro e he
    simp only [handleRequest, he]
  · intro w ws hw
    cases hp : ParseBuffer buffer with
    | ok q => exact ⟨q, rfl⟩
    | err e =>
      simp only [handleRequest, hp] at hw
      cases hw
    | panic =>
      simp only [handleRequest, hp] at hw
      cases hw
    | timeout =>
      simp only [handleRequest, hp] at hw
      cases hw

/-- C10, at the query with QDCOUNT = 2 and a table that holds `www`: no
datagram is written. -/
theorem handleRequest_error_no_reply_witness :
    ParseBuffer twoQuestionsQuery
      = Outcome.err (makeError MultipleQuestions "Request has multiple questions") ∧
    handleRequest [([119, 119, 119], dottedQuad 1 2 3 4)] (7 : Nat) twoQuestionsQuery = some [] :=
  ⟨by decide,
    (handleRequest_error_no_reply [([119, 119, 119], dottedQuad 1 2 3 4)] (7 : Nat)
      twoQuestionsQuery).1 (makeError MultipleQuestions "Request has multiple questions")
      (by decide)⟩

/-! ## Lemmas on the resolution table -/

theorem lookup_filter_ne (m : HostMap) (k k' : GoString) (h : k' ≠ k) :
    List.lookup k' (m.filter (fun p => decide (p.1 ≠ k))) = List.lookup k' m := by
  induction m with
  | nil => rfl
  | cons p ps ih =>
    obtain ⟨pk, pv⟩ := p
    by_cases hp : pk = k
    · subst hp
      have hne : (k' == pk) = false := by simpa using h
      simpa [List.filter, List.lookup, hne] using ih
    · by_cases hk : k' = pk
      · subst hk
        simp [List.filter, List.lookup, hp]
      · have hne : (k' == pk) = false := by simpa using hk
        simpa [List.filter, List.lookup, hp, hne] using ih

theorem HostMap.get_set (m : HostMap) (k v k' : GoString) :
    HostMap.get (HostMap.set m k v) k' = if k' = k then some v else HostMap.get m k' := by
  unfold HostMap.get HostMap.set
  by_cases h : k' = k
  · subst h
    simp [List.lookup]
  · have hne : (k' == k) = false := by simpa using h
    simp only [List.lookup, hne, h, if_false]
    exact lookup_filter_ne m k k' h

theorem cutFirst_eq_none_iff (sep : Nat) (s : GoString) : cutFirst sep s = none ↔ sep ∉ s := by
  induction s with
  | nil => simp [cutFirst]
  | cons c cs ih =>
    by_cases hc : c = sep
    · simp [cutFirst, hc]
    · have hc' : ¬ sep = c := fun e => hc e.symm
      cases hcut : cutFirst sep cs with
      | none => simp [cutFirst, hc, hc', hcut, ih.mp hcut]
      | some p =>
        have : ¬ sep ∉ cs := fun hn => by rw [ih.mpr hn] at hcut; cases hcut
        simp only [not_not] at this
        simp [cutFirst, hc, hcut, this]

theorem cutFirst_eq_some_iff (sep : Nat) (s a b : GoString) :
    cutFirst sep s = some (a, b) ↔ s = a ++ sep :: b ∧ sep ∉ a := by
  induction s generalizing a b with
  | nil => simp [cutFirst]
  | cons c cs ih =>
    by_cases hc : c = sep
    · subst hc
      simp only [cutFirst, if_true, Option.some.injEq, Prod.mk.injEq]
      constructor
      · rintro ⟨rfl, rfl⟩
        simp
      · rintro ⟨heq, hnot⟩
        cases a with
        | nil => simpa using heq
        | cons x xs =>
          simp only [List.cons_append, List.cons.injEq] at heq
          exact absurd (by simp [heq.1]) hnot
    · simp only [cutFirst, hc, if_false]
      cases hcut : cutFirst sep cs with
      | none =>
        simp only [false_iff, reduceCtorEq]
        rintro ⟨heq, hnot⟩
        have hmem := (cutFirst_eq_none_iff sep cs).mp hcut
        cases a with
        | nil =>
          simp only [List.nil_append, List.cons.injEq] at heq
          exact hc heq.1
        | cons x xs =>
          simp only [List.cons_append, List.cons.injEq] at heq
          apply hmem
          rw [heq.2]
          simp
      | some p =>
        obtain ⟨a', b'⟩ := p
        obtain ⟨heq', hnot'⟩ := (ih a' b').mp hcut
        simp only [Option.some.injEq, Prod.mk.injEq]
        constructor
        · rintro ⟨rfl, rfl⟩
          refine ⟨by simp [heq'], ?_⟩
          intro hm
          rcases List.mem_cons.mp hm with h1 | h2
          · exact hc h1.symm
          · exact hnot' h2
        · rintro ⟨heq, hnot⟩
          cases a with
          | nil =>
            simp only [List.nil_append, List.cons.injEq] at heq
            exact absurd heq.1 hc
          | cons x xs =>
            simp only [List.cons_append, List.cons.injEq] at heq
            obtain ⟨rfl, hcs⟩ := heq
            have hxs : sep ∉ xs := fun hm => hnot (List.mem_cons_of_mem _ hm)
            have := (ih xs b).mpr ⟨hcs, hxs⟩
            rw [hcut] at this
            simp only [Option.some.injEq, Prod.mk.injEq] at this
            exact ⟨by rw [this.1], this.2⟩

theorem scanLine_eq (m : HostMap) (line : GoString) :
    scanLine m line =
      match cutFirst 59 line with
      | none => m
      | some (address, host) => HostMap.set m host address := by
  unfold scanLine SplitN2
  cases cutFirst 59 line with
  | none => rfl
  | some p => rfl

theorem get_foldl_scanLine (host : GoString) (lines : List GoString) :
    ∀ m : HostMap, HostMap.get (lines.foldl scanLine m) host =
      match lastNaming host lines with
      | some address => some address
      | none => HostMap.get m host := by
  induction lines with
  | nil => intro m; rfl
  | cons l ls ih =>
    intro m
    simp only [List.foldl_cons, lastNaming]
    rw [ih]
    cases hlast : lastNaming host ls with
    | some a => rfl
    | none =>
      simp only [scanLine_eq]
      cases hcut : cutFirst 59 l with
      | none => rfl
      | some p =>
        obtain ⟨a, h⟩ := p
        simp only [HostMap.get_set]
        by_cases hh : h = host
        · subst hh
          simp
        · have : ¬ host = h := fun e => hh e.symm
          simp [hh, this]

theorem lastNaming_eq_none_iff (host : GoString) (lines : List GoString) :
    lastNaming host lines = none ↔ ∀ l ∈ lines, ∀ a, cutFirst 59 l ≠ some (a, host) := by
  induction lines with
  | nil => simp [lastNaming]
  | cons l ls ih =>
    simp only [lastNaming, List.mem_cons, forall_eq_or_imp]
    cases hlast : lastNaming host ls with
    | some a =>
      simp only [reduceCtorEq, false_iff, not_and]
      intro _ hall
      rw [ih.mpr hall] at hlast
      cases hlast
    | none =>
      have hall := ih.mp hlast
      cases hcut : cutFirst 59 l with
      | none =>
        simp only [true_iff]
        exact ⟨fun a => by simp, hall⟩
      | some p =>
        obtain ⟨a, h⟩ := p
        by_cases hh : h = host
        · subst hh
          simp
        · simp only [hh, if_false, true_iff]
          refine ⟨fun a' => ?_, hall⟩
          simp [hh]

theorem lastNaming_eq_some_iff (host address : GoString) (lines : List GoString) :
    lastNaming host lines = some address ↔
      ∃ before line after, lines = before ++ line :: after ∧
        cutFirst 59 line = some (address, host) ∧
        ∀ l ∈ after, ∀ a, cutFirst 59 l ≠ some (a, host) := by
  induction lines with
  | nil => simp [lastNaming]
  | cons l ls ih =>
    constructor
    · intro h
      simp only [lastNaming] at h
      cases hlast : lastNaming host ls with
      | some a =>
        rw [hlast] at h
        simp only [Option.some.injEq] at h
        subst h
        obtain ⟨before, line, after, hls, hcut, hall⟩ := ih.mp hlast
        exact ⟨l :: before, line, after, by simp [hls], hcut, hall⟩
      | none =>
        rw [hlast] at h
        refine ⟨[], l, ls, rfl, ?_, (lastNaming_eq_none_iff host ls).mp hlast⟩
        cases hcut : cutFirst 59 l with
        | none => rw [hcut] at h; cases h
        | some p =>
          obtain ⟨a, hh⟩ := p
          rw [hcut] at h
          by_cases he : hh = host
          · subst he
            simp only [if_true, Option.some.injEq] at h
            rw [h]
          · simp only [he, if_false, reduceCtorEq] at h
    · rintro ⟨before, line, after, hls, hcut, hall⟩
      cases before with
      | nil =>
        simp only [List.nil_append, List.cons.injEq] at hls
        obtain ⟨rfl, rfl⟩ := hls
        simp only [lastNaming, (lastNaming_eq_none_iff host ls).mpr hall, hcut, if_true]
      | cons b bs =>
        simp only [List.cons_append, List.cons.injEq] at hls
        obtain ⟨rfl, hls⟩ := hls
        have := ih.mpr ⟨bs, line, after, hls, hcut, hall⟩
        simp only [lastNaming, this]

theorem foldl_scanLine_filter (lines : List GoString) :
    ∀ m : HostMap, lines.foldl scanLine m
      = (lines.filter (fun line => decide (¬ NoSemicolon line))).foldl scanLine m := by
  induction lines with
  | nil => intro m; rfl
  | cons l ls ih =>
    intro m
    by_cases hl : NoSemicolon l
    · have hcut := (cutFirst_eq_none_iff 59 l).mpr hl
      have hskip : scanLine m l = m := by rw [scanLine_eq, hcut]
      simp [List.filter, hl, hskip, ih m]
    · simp [List.filter, hl, ih (scanLine m l)]

/-! ## The claims on the request handler -/

/-- C11: for every datagram that `ParseBuffer` accepts and every table with no
entry for the parsed name, `handleRequest` writes exactly one reply, the
reply is `MakeEmptyResponse` of the parsed question, its ANCOUNT bytes
(offsets 6-7) are 00 00, and its bytes from offset 12 on are the bytes of
the datagram from offset 12 to the end of QCLASS. -/
theorem handleRequest_unknown_name {Addr : Type} (hostMap : HostMap) (addr : Addr)
    (buffer : List Nat) (q : question) (hq : ParseBuffer buffer = Outcome.ok q)
    (hno : HostMap.get hostMap q.QName = none) :
    handleRequest hostMap addr buffer = some [(MakeEmptyResponse q, addr)] ∧
    ((MakeEmptyResponse q).drop 6).take 2 = [0, 0] ∧
    (MakeEmptyResponse q).drop 12 = (buffer.drop 12).take (q.questionName.length + 4) ∧
    ∃ labels extra, (∀ l ∈ labels, l ≠ []) ∧
      buffer.drop 12 = encodeName labels ++ [0, 1, 0, 1] ++ extra ∧
      (MakeEmptyResponse q).drop 12 = encodeName labels ++ [0, 1, 0, 1] := by
  refine ⟨?_, ?_, ?_⟩
  · simp only [handleRequest, hq, hno]
  · rw [MakeEmptyResponse_bytes]
    rfl
  · obtain ⟨i1, i0, f1, f2, a1, a0, n1, n0, r1, r0, labels, extra, rfl, -, -, -, hlab, rfl⟩ :=
      ParseBuffer_ok_inv buffer q hq
    rw [MakeEmptyResponse_bytes]
    have hdrop : ∀ (x y : Nat) (t : List Nat),
        ([x, y, 128, 0, 0, 1, 0, 0, 0, 0, 0, 0] ++ t).drop 12 = t := fun _ _ _ => rfl
    have hdropb : ∀ (t : List Nat),
        ([i1, i0, f1, f2, 0, 1, a1, a0, n1, n0, r1, r0] ++ t).drop 12 = t := fun _ => rfl
    rw [hdrop, hdropb]
    refine ⟨?_, labels, extra, fun l hl => (hlab l hl).1, by simp, rfl⟩
    have hlen : (encodeName labels).length + 4 = (encodeName labels ++ [0, 1, 0, 1]).length := by
      simp
    have happ : encodeName labels ++ 0 :: 1 :: 0 :: 1 :: extra
        = (encodeName labels ++ [0, 1, 0, 1]) ++ extra := by simp
    rw [hlen, happ, List.take_left]

/-- C11, at the scenario query with three trailing bytes and a table that
holds only `mail`. -/
theorem handleRequest_unknown_name_witness :
    ParseBuffer (wwwQuery ++ [7, 8, 9]) = Outcome.ok wwwQuestion ∧
    HostMap.get [(ascii "mail", dottedQuad 1 2 3 4)] wwwQuestion.QName = none ∧
    handleRequest [(ascii "mail", dottedQuad 1 2 3 4)] (7 : Nat) (wwwQuery ++ [7, 8, 9])
      = some [(MakeEmptyResponse wwwQuestion, 7)] ∧
    ((MakeEmptyResponse wwwQuestion).drop 6).take 2 = [0, 0] ∧
    (MakeEmptyResponse wwwQuestion).drop 12
      = ((wwwQuery ++ [7, 8, 9]).drop 12).take (wwwQuestion.questionName.length + 4) ∧
    ∃ labels extra, (∀ l ∈ labels, l ≠ []) ∧
      (wwwQuery ++ [7, 8, 9]).drop 12 = encodeName labels ++ [0, 1, 0, 1] ++ extra ∧
      (MakeEmptyResponse wwwQuestion).drop 12 = encodeName labels ++ [0, 1, 0, 1] :=
  ⟨by decide, by decide,
    handleRequest_unknown_name [(ascii "mail", dottedQuad 1 2 3 4)] (7 : Nat)
      (wwwQuery ++ [7, 8, 9]) wwwQuestion (by decide) (by decide)⟩

/-- C12: for every datagram that `ParseBuffer` accepts and every table that
maps exactly the parsed name to a dotted quad `a.b.c.d`, `handleRequest`
writes exactly one reply; its ANCOUNT bytes are 00 01, its first two bytes
are the first two bytes of the datagram and its last four bytes are
a, b, c, d. -/
theorem handleRequest_known_name {Addr : Type} (hostMap : HostMap) (addr : Addr)
    (buffer : List Nat) (q : question) (a b c d : Nat) (hbytes : IsBytes buffer)
    (hq : ParseBuffer buffer = Outcome.ok q)
    (hget : HostMap.get hostMap q.QName = some (dottedQuad a b c d))
    (ha : a < 256) (hb : b < 256) (hc : c < 256) (hd : d < 256) :
    ∃ out, handleRequest hostMap addr buffer = some [(out, addr)] ∧
      MakeResponse q (dottedQuad a b c d) = some out ∧
      (out.drop 6).take 2 = [0, 1] ∧
      out.take 2 = buffer.take 2 ∧
      out.drop (out.length - 4) = [a, b, c, d] := by
  have hresp := MakeResponse_dottedQuad q a b c d ha hb hc hd
  refine ⟨_, ?_, hresp, rfl, ?_, ?_⟩
  · simp only [handleRequest, hq, hget, hresp]
  · obtain ⟨i1, i0, f1, f2, a1, a0, n1, n0, r1, r0, labels, extra, rfl, -, -, -, -, rfl⟩ :=
      ParseBuffer_ok_inv buffer q hq
    have h1 : i1 < 256 := hbytes i1 (by simp)
    have h0 : i0 < 256 := hbytes i0 (by simp)
    have e1 : beUint16 i1 i0 / 256 % 256 = i1 := by
      unfold beUint16
      omega
    have e0 : beUint16 i1 i0 % 256 = i0 := by
      unfold beUint16
      omega
    simp [e1, e0]
  · have hsplit : ∀ (pre : List Nat),
        (pre ++ [a, b, c, d]).drop ((pre ++ [a, b, c, d]).length - 4) = [a, b, c, d] := by
      intro pre
      have : (pre ++ [a, b, c, d]).length - 4 = pre.length := by simp
      rw [this, List.drop_left]
    have := hsplit ([q.id / 256 % 256, q.id % 256, 128, 0, 0, 1, 0, 1, 0, 0, 0, 0] ++ q.question
        ++ q.questionName ++ [0, 1, 0, 1, 0, 0, 0, 60, 0, 4])
    simpa using this

/-- C12, at the scenario query and the table `www -> 1.2.3.4`. -/
theorem handleRequest_known_name_witness :
    IsBytes wwwQuery ∧ ParseBuffer wwwQuery = Outcome.ok wwwQuestion ∧
    HostMap.get [(ascii "www", dottedQuad 1 2 3 4)] wwwQuestion.QName
      = some (dottedQuad 1 2 3 4) ∧
    ∃ out, handleRequest [(ascii "www", dottedQuad 1 2 3 4)] (7 : Nat) wwwQuery
        = some [(out, 7)] ∧
      MakeResponse wwwQuestion (dottedQuad 1 2 3 4) = some out ∧
      (out.drop 6).take 2 = [0, 1] ∧
      out.take 2 = wwwQuery.take 2 ∧
      out.drop (out.length - 4) = [1, 2, 3, 4] :=
  ⟨by decide, by decide, by decide,
    handleRequest_known_name [(ascii "www", dottedQuad 1 2 3 4)] (7 : Nat) wwwQuery wwwQuestion
      1 2 3 4 (by decide) (by decide) (by decide) (by decide) (by decide) (by decide)
      (by decide)⟩

/-! ## Lemmas on the scanner and the refresh -/

theorem splitOnByte_ne_nil (sep : Nat) (s : List Nat) : splitOnByte sep s ≠ [] := by
  cases s with
  | nil => simp [splitOnByte]
  | cons c cs =>
    by_cases hc : c = sep
    · simp [splitOnByte, hc]
    · cases h : splitOnByte sep cs <;> simp [splitOnByte, hc, h]

theorem rawLines_append_newline (line rest : List Nat) (h : 10 ∉ line) :
    rawLines (line ++ 10 :: rest) = line :: rawLines rest := by
  unfold rawLines
  simp only [splitOnByte_append_sep 10 line rest h]
  obtain ⟨f, fs, hf⟩ := List.exists_cons_of_ne_nil (splitOnByte_ne_nil 10 rest)
  rw [hf]
  by_cases hl : (f :: fs).getLast? = some []
  · simp only [List.getLast?_cons_cons, hl, if_true, List.dropLast_cons₂]
  · simp only [List.getLast?_cons_cons, hl, if_false]

theorem rawLines_nil : rawLines [] = [] := by decide

theorem scanTokens_append_newline (line rest : List Nat) (h : 10 ∉ line) :
    scanTokens (line ++ 10 :: rest) =
      if line.length < MaxScanTokenSize then dropCR line :: scanTokens rest else [] := by
  unfold scanTokens
  rw [rawLines_append_newline line rest h]
  by_cases hl : line.length < MaxScanTokenSize
  · simp [List.takeWhile, hl]
  · simp [List.takeWhile, hl]

theorem scanTokens_of_shortLines (stdout : List Nat) (h : ShortLines stdout) :
    scanTokens stdout = outputLines stdout := by
  unfold scanTokens outputLines
  have : (rawLines stdout).takeWhile (fun raw => decide (raw.length < MaxScanTokenSize))
      = rawLines stdout := by
    rw [List.takeWhile_eq_self_iff]
    intro x hx
    simpa using h x hx
  rw [this]

theorem mem_outputLines_of_mem_scanTokens (stdout : List Nat) (line : GoString)
    (h : line ∈ scanTokens stdout) : line ∈ outputLines stdout := by
  unfold scanTokens at h
  unfold outputLines
  obtain ⟨raw, hraw, rfl⟩ := List.mem_map.mp h
  exact List.mem_map.mpr ⟨raw, (List.takeWhile_prefix _).subset hraw, rfl⟩

theorem longLine_length : longLine.length = 65536 := by
  unfold longLine
  rw [List.length_replicate]

theorem longLine_not_mem (c : Nat) (h : c ≠ 120) : c ∉ longLine := by
  unfold longLine
  intro hmem
  exact h (List.eq_of_mem_replicate hmem)

theorem dropCR_longLine : dropCR longLine = longLine := by
  have hlast : longLine.getLast? = some 120 := by
    unfold longLine
    rw [List.getLast?_replicate]
    decide
  unfold dropCR
  rw [hlast, if_neg (by decide)]

theorem rawLines_truncatedOutput :
    rawLines truncatedOutput = [ascii "1.2.3.4;a", longLine, ascii "5.6.7.8;b"] := by
  unfold truncatedOutput
  rw [rawLines_append_newline _ _ (by decide),
    rawLines_append_newline _ _ (longLine_not_mem 10 (by decide)),
    rawLines_append_newline _ _ (by decide), rawLines_nil]

theorem outputLines_truncatedOutput :
    outputLines truncatedOutput = [ascii "1.2.3.4;a", longLine, ascii "5.6.7.8;b"] := by
  unfold outputLines
  have h1 : dropCR (ascii "1.2.3.4;a") = ascii "1.2.3.4;a" := by decide
  have h3 : dropCR (ascii "5.6.7.8;b") = ascii "5.6.7.8;b" := by decide
  rw [rawLines_truncatedOutput]
  simp only [List.map_cons, List.map_nil, dropCR_longLine, h1, h3]

theorem scanTokens_truncatedOutput : scanTokens truncatedOutput = [ascii "1.2.3.4;a"] := by
  unfold truncatedOutput
  rw [scanTokens_append_newline _ _ (by decide),
    scanTokens_append_newline _ _ (longLine_not_mem 10 (by decide)), longLine_length]
  decide

theorem cmdExtraction_truncatedOutput (hostMap : HostMap) :
    cmdExtraction { err := none, stdout := truncatedOutput } hostMap
      = [(ascii "a", ascii "1.2.3.4")] := by
  simp only [cmdExtraction, scanTokens_truncatedOutput]
  decide

theorem get_scanLines_iff (lines : List GoString) (host address : GoString) :
    HostMap.get (scanLines lines) host = some address ↔ LastLineCut lines host address := by
  have hget := get_foldl_scanLine host lines []
  have hnil : HostMap.get [] host = none := rfl
  have hiff : lastNaming host lines = some address ↔ LastLineCut lines host address := by
    rw [lastNaming_eq_some_iff]
    unfold LastLineCut NoSemicolon
    constructor
    · rintro ⟨before, line, after, hls, hcut, hall⟩
      obtain ⟨hline, hno⟩ := (cutFirst_eq_some_iff 59 line address host).mp hcut
      refine ⟨before, after, by rw [hls, hline], hno, ?_⟩
      intro l hl a ha heq
      exact hall l hl a ((cutFirst_eq_some_iff 59 l a host).mpr ⟨heq, ha⟩)
    · rintro ⟨before, after, hls, hno, hall⟩
      refine ⟨before, address ++ 59 :: host, after, hls,
        (cutFirst_eq_some_iff 59 _ address host).mpr ⟨rfl, hno⟩, ?_⟩
      intro l hl a hcut
      obtain ⟨hline, ha⟩ := (cutFirst_eq_some_iff 59 l a host).mp hcut
      exact hall l hl a ha hline
  unfold scanLines
  rw [hget]
  cases hlast : lastNaming host lines with
  | none =>
    rw [hlast] at hiff
    simp only [hnil]
    constructor
    · intro h; cases h
    · intro h; exact absurd (hiff.mpr h) (by simp)
  | some a =>
    rw [hlast] at hiff
    exact hiff

theorem lastLineCut_iff_lastLineNaming (lines : List GoString) (host address : GoString)
    (hform : ∀ line ∈ lines, OneSemicolon line ∨ NoSemicolon line) :
    LastLineCut lines host address ↔ LastLineNaming lines host address := by
  have hcount : ∀ (l a h : GoString), l.count 59 ≤ 1 → l = a ++ 59 :: h → NoSemicolon a := by
    intro l a h hc heq hmem
    have hpos : 0 < a.count 59 := List.count_pos_iff.mpr hmem
    rw [heq] at hc
    simp at hc
    omega
  have hle : ∀ line ∈ lines, line.count 59 ≤ 1 := by
    intro line hl
    rcases hform line hl with h | h
    · unfold OneSemicolon at h
      omega
    · unfold NoSemicolon at h
      rw [List.count_eq_zero_of_not_mem h]
      omega
  unfold LastLineCut LastLineNaming
  constructor
  · rintro ⟨before, after, hls, -, hall⟩
    refine ⟨before, after, hls, ?_⟩
    intro l hl a heq
    have hlmem : l ∈ lines := by rw [hls]; simp [hl]
    exact hall l hl a (hcount l a host (hle l hlmem) heq) heq
  · rintro ⟨before, after, hls, hall⟩
    have hmem : address ++ 59 :: host ∈ lines := by rw [hls]; simp
    exact ⟨before, after, hls, hcount _ address host (hle _ hmem) rfl,
      fun l hl a _ => hall l hl a⟩

theorem scanLines_append (xs ys : List GoString) :
    scanLines (xs ++ ys) = ys.foldl scanLine (scanLines xs) := by
  simp [scanLines, List.foldl_append]

theorem scanLine_of_noSemicolon (m : HostMap) (line : GoString) (h : NoSemicolon line) :
    scanLine m line = m := by
  rw [scanLine_eq, (cutFirst_eq_none_iff 59 line).mpr h]

theorem get_scanLines_some (lines : List GoString) (host address : GoString)
    (h : HostMap.get (scanLines lines) host = some address) :
    ∃ line ∈ lines, line = address ++ 59 :: host ∧ NoSemicolon address := by
  obtain ⟨before, after, hls, hno, -⟩ := (get_scanLines_iff lines host address).mp h
  exact ⟨address ++ 59 :: host, by rw [hls]; simp, rfl, hno⟩

theorem cmdExtraction_of_shortLines (stdout : List Nat) (hostMap : HostMap)
    (h : ShortLines stdout) :
    cmdExtraction { err := none, stdout := stdout } hostMap = scanLines (outputLines stdout) := by
  simp only [cmdExtraction, scanTokens_of_shortLines stdout h]

/-! ## The claims on the refresh -/

/-- C16, as the spec states it, fails: after a successful refresh on the
output `x;www` the table maps `www` to `x`, which is no IPv4 address, and
`handleRequest` on the scenario query ends in the panic of `MakeResponse`. -/
theorem refresh_valid_addresses_counterexample :
    HostMap.get (cmdExtraction { err := none, stdout := ascii "x;www" ++ [10] } [])
      (ascii "www") = some (ascii "x") ∧
    ParseIPTo4 (ascii "x") = none ∧
    ParseBuffer wwwQuery = Outcome.ok wwwQuestion ∧
    MakeResponse wwwQuestion (ascii "x") = none ∧
    handleRequest (cmdExtraction { err := none, stdout := ascii "x;www" ++ [10] } []) (7 : Nat)
      wwwQuery = none := by
  decide

/-- C16, amended: after every successful refresh each value stored in the
table is the text before the first `;` of one of the lines of the batch (a
line that the scanner yields), stored as it is; when such a value is a dotted
quad, `MakeResponse` called by `handleRequest` with it returns a reply. -/
theorem refresh_stores_first_field {Addr : Type} (hostMap : HostMap) (addr : Addr)
    (stdout : List Nat) (host value : GoString)
    (hget : HostMap.get (cmdExtraction { err := none, stdout := stdout } hostMap) host
      = some value) :
    (∃ line ∈ outputLines stdout, line ∈ scanTokens stdout ∧ line = value ++ 59 :: host ∧
      NoSemicolon value) ∧
    (∀ a b c d, a < 256 → b < 256 → c < 256 → d < 256 → value = dottedQuad a b c d →
      ∀ (buffer : List Nat) (q : question), ParseBuffer buffer = Outcome.ok q →
        q.QName = host →
        ∃ out, MakeResponse q value = some out ∧
          handleRequest (cmdExtraction { err := none, stdout := stdout } hostMap) addr buffer
            = some [(out, addr)]) := by
  refine ⟨?_, ?_⟩
  · obtain ⟨line, hmem, hline, hno⟩ := get_scanLines_some (scanTokens stdout) host value hget
    exact ⟨line, mem_outputLines_of_mem_scanTokens stdout line hmem, hmem, hline, hno⟩
  · intro a b c d ha hb hc hd hval buffer q hq hname
    subst hval
    have hresp := MakeResponse_dottedQuad q a b c d ha hb hc hd
    refine ⟨_, hresp, ?_⟩
    rw [← hname] at hget
    simp only [handleRequest, hq, hget, hresp]

/-- C16 amended, at the output `1.2.3.4;www`. -/
theorem refresh_stores_first_field_witness :
    HostMap.get (cmdExtraction { err := none, stdout := ascii "1.2.3.4;www" ++ [10] } [])
      (ascii "www") = some (ascii "1.2.3.4") ∧
    ∃ line ∈ outputLines (ascii "1.2.3.4;www" ++ [10]),
      line ∈ scanTokens (ascii "1.2.3.4;www" ++ [10]) ∧
      line = ascii "1.2.3.4" ++ 59 :: ascii "www" ∧ NoSemicolon (ascii "1.2.3.4") :=
  ⟨by decide,
    (refresh_stores_first_field [] (7 : Nat) (ascii "1.2.3.4;www" ++ [10]) (ascii "www")
      (ascii "1.2.3.4") (by decide)).1⟩

/-! ## The claims on totality, reflected responses and trailing bytes -/

theorem ParseBuffer_ok_or_err (buffer : List Nat) :
    (∃ q, ParseBuffer buffer = Outcome.ok q) ∨ (∃ e, ParseBuffer buffer = Outcome.err e) := by
  by_cases hlen : buffer.length < 12
  · exact Or.inr ⟨_, ParseBuffer_short buffer hlen⟩
  · obtain ⟨i1, i0, f1, f2, q1, q0, a1, a0, n1, n0, r1, r0, rest, rfl⟩ :=
      exists_header_of_length buffer (by omega)
    obtain ⟨c1, c2, c3, c4, c5⟩ :=
      ParseBuffer_header_checks i1 i0 f1 f2 q1 q0 a1 a0 n1 n0 r1 r0 rest
    by_cases hqr : f1 >>> 7 = 0
    · by_cases hop : (f1 >>> 3) &&& 0xF = 0
      · by_cases htc : (f1 >>> 1) &&& 1 = 0
        · by_cases hq0 : beUint16 q1 q0 = 0
          · exact Or.inr ⟨_, c4 hqr hop htc hq0⟩
          · by_cases hq1 : beUint16 q1 q0 > 1
            · exact Or.inr ⟨_, c5 hqr hop htc hq1⟩
            · obtain ⟨rfl, rfl⟩ := beUint16_eq_one q1 q0 (by omega)
              rcases ParseBuffer_body i1 i0 f1 f2 a1 a0 n1 n0 r1 r0 rest hqr hop htc with
                ⟨msg, herr⟩ | ⟨labels, t1, t0, d1, d0, extra, hrest, hlab⟩
              · exact Or.inr ⟨_, herr⟩
              · subst hrest
                have hval := ParseBuffer_of_wire i1 i0 f1 f2 a1 a0 n1 n0 r1 r0 t1 t0 d1 d0
                  labels extra hqr hop htc (fun l hl => (hlab l hl).1)
                simp only [List.cons_append, List.nil_append] at hval
                rw [hval]
                by_cases hclass : beUint16 d1 d0 = 1
                · by_cases htype : beUint16 t1 t0 = 1
                  · left
                    simp only [hclass, htype, ne_eq, not_true_eq_false, if_false]
                    exact ⟨_, rfl⟩
                  · right
                    simp only [hclass, htype, ne_eq, not_true_eq_false, not_false_eq_true,
                      if_false, if_true]
                    exact ⟨_, rfl⟩
                · right
                  simp only [hclass, ne_eq, not_false_eq_true, if_true]
                  exact ⟨_, rfl⟩
        · exact Or.inr ⟨_, c3 hqr hop htc⟩
      · exact Or.inr ⟨_, c2 hqr hop⟩
    · exact Or.inr ⟨_, c1 hqr⟩

theorem labelLoop_pos_le (buffer : List Nat) (bufferLength : Nat) :
    ∀ (fuel pos len : Nat) (acc : List Nat) (pos' : Nat) (qname : List Nat),
      labelLoop buffer bufferLength fuel pos len acc = Outcome.ok (pos', qname) → pos ≤ pos' := by
  intro fuel
  induction fuel with
  | zero =>
    intro pos len acc pos' qname h
    simp only [labelLoop] at h
    cases h
  | succ n ih =>
    intro pos len acc pos' qname h
    rw [labelLoop] at h
    by_cases hlen : len = 0
    · simp only [hlen, ne_eq, not_true_eq_false, if_false, Outcome.ok.injEq,
        Prod.mk.injEq] at h
      omega
    · simp only [hlen, ne_eq, not_false_eq_true, if_true] at h
      split at h
      · cases h
      · split at h
        · cases h
        · split at h
          · cases h
          · have := ih _ _ _ _ _ h
            omega

/-- C18: `ParseBuffer` is total and panic-free: on every buffer it ends, with
the `len(buffer)` iterations that the buffer allows, in a question or in a
`DnsError`, never in an index or slice out of range; and the label loop,
from every position inside the buffer, ends in the error of a label that
does not fit or at a position that is not before its start and is inside the
buffer. -/
theorem ParseBuffer_total (buffer : List Nat) :
    ParseBuffer buffer ≠ Outcome.panic ∧ ParseBuffer buffer ≠ Outcome.timeout ∧
    ((∃ q, ParseBuffer buffer = Outcome.ok q) ∨ (∃ e, ParseBuffer buffer = Outcome.err e)) ∧
    ∀ pos len acc, buffer[pos]? = some len →
      labelLoop buffer buffer.length buffer.length pos len acc
          = Outcome.err (makeError FailedParsingBuffer "Buffer too small #2") ∨
      ∃ pos' qname, labelLoop buffer buffer.length buffer.length pos len acc
          = Outcome.ok (pos', qname) ∧ pos ≤ pos' ∧ pos' < buffer.length := by
  have h := ParseBuffer_ok_or_err buffer
  refine ⟨?_, ?_, h, ?_⟩
  · rcases h with ⟨q, hq⟩ | ⟨e, he⟩
    · rw [hq]; exact fun hc => by cases hc
    · rw [he]; exact fun hc => by cases hc
  · rcases h with ⟨q, hq⟩ | ⟨e, he⟩
    · rw [hq]; exact fun hc => by cases hc
    · rw [he]; exact fun hc => by cases hc
  · intro pos len acc hget
    rcases labelLoop_sound buffer buffer.length pos len acc hget (by omega) with
      herr | ⟨pos', labels, hok, hlt, -, -⟩
    · exact Or.inl herr
    · exact Or.inr ⟨pos', _, hok,
        labelLoop_pos_le buffer buffer.length buffer.length pos len acc pos' _ hok, hlt⟩

/-- C18, at a buffer whose second label announces more bytes than are left:
the parse ends in `FailedParsingBuffer`, not in a panic. -/
theorem ParseBuffer_total_witness :
    ParseBuffer [0, 1, 0, 0, 0, 1, 0, 0, 0, 0, 0, 0, 1, 97, 9, 98] ≠ Outcome.panic ∧
    ParseBuffer [0, 1, 0, 0, 0, 1, 0, 0, 0, 0, 0, 0, 1, 97, 9, 98] ≠ Outcome.timeout :=
  ⟨(ParseBuffer_total [0, 1, 0, 0, 0, 1, 0, 0, 0, 0, 0, 0, 1, 97, 9, 98]).1,
    (ParseBuffer_total [0, 1, 0, 0, 0, 1, 0, 0, 0, 0, 0, 0, 1, 97, 9, 98]).2.1⟩

theorem MakeResponse_some_shape (q : question) (address : GoString) (out : List Nat)
    (h : MakeResponse q address = some out) :
    ∃ rest, out = q.id / 256 % 256 :: q.id % 256 :: 128 :: 0 :: 0 :: 1 :: 0 :: 1 :: 0 :: 0 :: 0
      :: 0 :: rest := by
  unfold MakeResponse at h
  split at h
  · simp only [Option.some.injEq] at h
    refine ⟨out.drop 12, ?_⟩
    rw [← h]
    simp [writeHeader, putUint16]
  · cases h

/-- C19: the server never accepts its own output as a query: on every reply
that `MakeResponse` returns and on every reply of `MakeEmptyResponse`,
`ParseBuffer` fails with `NotAQuestion`, so `handleRequest` writes no reply
to a reflected response. -/
theorem ParseBuffer_rejects_own_output {Addr : Type} (hostMap : HostMap) (addr : Addr)
    (q : question) (address : GoString) (out : List Nat)
    (hout : MakeResponse q address = some out) :
    ParseBuffer out = Outcome.err (makeError NotAQuestion "Request is not a query") ∧
    ParseBuffer (MakeEmptyResponse q)
      = Outcome.err (makeError NotAQuestion "Request is not a query") ∧
    handleRequest hostMap addr out = some [] ∧
    handleRequest hostMap addr (MakeEmptyResponse q) = some [] := by
  obtain ⟨rest, rfl⟩ := MakeResponse_some_shape q address out hout
  have h1 := (ParseBuffer_header_checks (q.id / 256 % 256) (q.id % 256) 128 0 0 1 0 1 0 0 0 0
    rest).1 (by decide)
  have h2 : ParseBuffer (MakeEmptyResponse q)
      = Outcome.err (makeError NotAQuestion "Request is not a query") := by
    rw [MakeEmptyResponse_bytes]
    exact (ParseBuffer_header_checks (q.id / 256 % 256) (q.id % 256) 128 0 0 1 0 0 0 0 0 0
      q.question).1 (by decide)
  refine ⟨h1, h2, ?_, ?_⟩
  · simp only [handleRequest, h1]
  · simp only [handleRequest, h2]

/-- C19, at the replies to the scenario query with the address `1.2.3.4`. -/
theorem ParseBuffer_rejects_own_output_witness :
    ParseBuffer wwwQuery = Outcome.ok wwwQuestion ∧
    MakeResponse wwwQuestion (dottedQuad 1 2 3 4) =
      some [0, 1, 128, 0, 0, 1, 0, 1, 0, 0, 0, 0, 3, 119, 119, 119, 0, 0, 1, 0, 1,
        3, 119, 119, 119, 0, 0, 1, 0, 1, 0, 0, 0, 60, 0, 4, 1, 2, 3, 4] ∧
    ParseBuffer [0, 1, 128, 0, 0, 1, 0, 1, 0, 0, 0, 0, 3, 119, 119, 119, 0, 0, 1, 0, 1,
        3, 119, 119, 119, 0, 0, 1, 0, 1, 0, 0, 0, 60, 0, 4, 1, 2, 3, 4]
      = Outcome.err (makeError NotAQuestion "Request is not a query") ∧
    ParseBuffer (MakeEmptyResponse wwwQuestion)
      = Outcome.err (makeError NotAQuestion "Request is not a query") ∧
    handleRequest [(ascii "www", dottedQuad 1 2 3 4)] (7 : Nat)
        [0, 1, 128, 0, 0, 1, 0, 1, 0, 0, 0, 0, 3, 119, 119, 119, 0, 0, 1, 0, 1,
        3, 119, 119, 119, 0, 0, 1, 0, 1, 0, 0, 0, 60, 0, 4, 1, 2, 3, 4] = some [] ∧
    handleRequest [(ascii "www", dottedQuad 1 2 3 4)] (7 : Nat) (MakeEmptyResponse wwwQuestion)
      = some [] :=
  ⟨by decide, by decide,
    ParseBuffer_rejects_own_output [(ascii "www", dottedQuad 1 2 3 4)] (7 : Nat) wwwQuestion
      (dottedQuad 1 2 3 4) _ (by decide)⟩

/-- C20: bytes after the question section are ignored: when `ParseBuffer`
accepts a buffer it accepts the buffer followed by any bytes and returns the
same question (id, name, raw question bytes, raw name bytes), so
`handleRequest` writes the same reply for both. -/
theorem ParseBuffer_ignores_trailing_bytes {Addr : Type} (hostMap : HostMap) (addr : Addr)
    (buffer extra : List Nat) (q : question) (hq : ParseBuffer buffer = Outcome.ok q) :
    ParseBuffer (buffer ++ extra) = Outcome.ok q ∧
    handleRequest hostMap addr (buffer ++ extra) = handleRequest hostMap addr buffer := by
  have hext : ParseBuffer (buffer ++ extra) = Outcome.ok q := by
    obtain ⟨i1, i0, f1, f2, a1, a0, n1, n0, r1, r0, labels, rest, rfl, hqr, hop, htc, hlab, rfl⟩ :=
      ParseBuffer_ok_inv buffer q hq
    have hval := ParseBuffer_of_wire i1 i0 f1 f2 a1 a0 n1 n0 r1 r0 0 1 0 1 labels
      (rest ++ extra) hqr hop htc (fun l hl => (hlab l hl).1)
    have hone : beUint16 0 1 = 1 := rfl
    simp only [hone, ne_eq, not_true_eq_false, if_false] at hval
    rw [← hval]
    congr 1
    simp
  refine ⟨hext, ?_⟩
  simp only [handleRequest, hext, hq]

/-- C20, at the scenario query followed by the bytes 7, 8, 9. -/
theorem ParseBuffer_ignores_trailing_bytes_witness :
    ParseBuffer wwwQuery = Outcome.ok wwwQuestion ∧
    ParseBuffer (wwwQuery ++ [7, 8, 9]) = Outcome.ok wwwQuestion ∧
    handleRequest [(ascii "www", dottedQuad 1 2 3 4)] (7 : Nat) (wwwQuery ++ [7, 8, 9])
      = handleRequest [(ascii "www", dottedQuad 1 2 3 4)] (7 : Nat) wwwQuery :=
  ⟨by decide,
    ParseBuffer_ignores_trailing_bytes [(ascii "www", dottedQuad 1 2 3 4)] (7 : Nat) wwwQuery
      [7, 8, 9] wwwQuestion (by decide)⟩

end DnsServer
